import Mathlib

/-!
Verification of `src/handlers/stock-recommendation.py`.

This file gives a shallow embedding of the handler's data model and
operations and proves (or refutes) the specification's claims about them.

Modelling conventions, used throughout:
* Python dicts are association lists `List (String × Json)` in insertion
  order (Python 3.7+ dict order); keys are unique in all inputs considered.
* JSON numeric payloads are modelled as integers (`Int`).  The handler does
  no arithmetic on data values, and none of the verified properties depend
  on the rendering of non-integral floats, whose `repr`-based formatting is
  outside the model.  `Decimal` values (produced by `sanitize_data`) are
  likewise carried as plain numbers: `json.dumps` renders them only after
  `convert_decimals` turns them into floats.
* Exceptions are values of `PyErr`, and fallible code returns `Except`.
* `time.sleep` calls are recorded as a list of rational durations.
* Side effects on DynamoDB and Bedrock are recorded as `Effect` values.
-/

set_option maxRecDepth 40000

namespace StockRec

/-- Decidable equality for `Except`, used to evaluate concrete runs. -/
instance {ε α : Type} [DecidableEq ε] [DecidableEq α] : DecidableEq (Except ε α) := fun a b =>
  match a, b with
  | .ok x, .ok y =>
    match decEq x y with
    | .isTrue h => .isTrue (congrArg Except.ok h)
    | .isFalse h => .isFalse fun e => h (Except.ok.inj e)
  | .error x, .error y =>
    match decEq x y with
    | .isTrue h => .isTrue (congrArg Except.error h)
    | .isFalse h => .isFalse fun e => h (Except.error.inj e)
  | .ok _, .error _ => .isFalse fun h => nomatch h
  | .error _, .ok _ => .isFalse fun h => nomatch h

/-- JSON values (the subset exchanged by the handler). -/
inductive Json where
  | null
  | bool (b : Bool)
  | num (n : Int)
  | str (s : String)
  | arr (elems : List Json)
  | obj (members : List (String × Json))

mutual

/-- Decidable equality on `Json` (the nested inductive needs a hand-written
instance). -/
def jsonDecEq : (a b : Json) → Decidable (a = b)
  | .null, .null => .isTrue rfl
  | .bool x, .bool y =>
    match decEq x y with
    | .isTrue h => .isTrue (congrArg Json.bool h)
    | .isFalse h => .isFalse fun e => h (Json.bool.inj e)
  | .num x, .num y =>
    match decEq x y with
    | .isTrue h => .isTrue (congrArg Json.num h)
    | .isFalse h => .isFalse fun e => h (Json.num.inj e)
  | .str x, .str y =>
    match decEq x y with
    | .isTrue h => .isTrue (congrArg Json.str h)
    | .isFalse h => .isFalse fun e => h (Json.str.inj e)
  | .arr xs, .arr ys =>
    match jsonDecEqList xs ys with
    | .isTrue h => .isTrue (congrArg Json.arr h)
    | .isFalse h => .isFalse fun e => h (Json.arr.inj e)
  | .obj xs, .obj ys =>
    match jsonDecEqObj xs ys with
    | .isTrue h => .isTrue (congrArg Json.obj h)
    | .isFalse h => .isFalse fun e => h (Json.obj.inj e)
  | .null, .bool _ => .isFalse fun h => nomatch h
  | .null, .num _ => .isFalse fun h => nomatch h
  | .null, .str _ => .isFalse fun h => nomatch h
  | .null, .arr _ => .isFalse fun h => nomatch h
  | .null, .obj _ => .isFalse fun h => nomatch h
  | .bool _, .null => .isFalse fun h => nomatch h
  | .bool _, .num _ => .isFalse fun h => nomatch h
  | .bool _, .str _ => .isFalse fun h => nomatch h
  | .bool _, .arr _ => .isFalse fun h => nomatch h
  | .bool _, .obj _ => .isFalse fun h => nomatch h
  | .num _, .null => .isFalse fun h => nomatch h
  | .num _, .bool _ => .isFalse fun h => nomatch h
  | .num _, .str _ => .isFalse fun h => nomatch h
  | .num _, .arr _ => .isFalse fun h => nomatch h
  | .num _, .obj _ => .isFalse fun h => nomatch h
  | .str _, .null => .isFalse fun h => nomatch h
  | .str _, .bool _ => .isFalse fun h => nomatch h
  | .str _, .num _ => .isFalse fun h => nomatch h
  | .str _, .arr _ => .isFalse fun h => nomatch h
  | .str _, .obj _ => .isFalse fun h => nomatch h
  | .arr _, .null => .isFalse fun h => nomatch h
  | .arr _, .bool _ => .isFalse fun h => nomatch h
  | .arr _, .num _ => .isFalse fun h => nomatch h
  | .arr _, .str _ => .isFalse fun h => nomatch h
  | .arr _, .obj _ => .isFalse fun h => nomatch h
  | .obj _, .null => .isFalse fun h => nomatch h
  | .obj _, .bool _ => .isFalse fun h => nomatch h
  | .obj _, .num _ => .isFalse fun h => nomatch h
  | .obj _, .str _ => .isFalse fun h => nomatch h
  | .obj _, .arr _ => .isFalse fun h => nomatch h

/-- Decidable equality on lists of `Json`. -/
def jsonDecEqList : (xs ys : List Json) → Decidable (xs = ys)
  | [], [] => .isTrue rfl
  | [], _ :: _ => .isFalse fun h => nomatch h
  | _ :: _, [] => .isFalse fun h => nomatch h
  | x :: xs, y :: ys =>
    match jsonDecEq x y with
    | .isFalse h => .isFalse fun e => h (List.head_eq_of_cons_eq e)
    | .isTrue h₁ =>
      match jsonDecEqList xs ys with
      | .isTrue h₂ => .isTrue (by rw [h₁, h₂])
      | .isFalse h => .isFalse fun e => h (List.tail_eq_of_cons_eq e)

/-- Decidable equality on lists of object members. -/
def jsonDecEqObj : (xs ys : List (String × Json)) → Decidable (xs = ys)
  | [], [] => .isTrue rfl
  | [], _ :: _ => .isFalse fun h => nomatch h
  | _ :: _, [] => .isFalse fun h => nomatch h
  | (k, v) :: xs, (k', v') :: ys =>
    match decEq k k' with
    | .isFalse h => .isFalse fun e => h (congrArg Prod.fst (List.head_eq_of_cons_eq e))
    | .isTrue hk =>
      match jsonDecEq v v' with
      | .isFalse h => .isFalse fun e => h (congrArg Prod.snd (List.head_eq_of_cons_eq e))
      | .isTrue hv =>
        match jsonDecEqObj xs ys with
        | .isTrue ht => .isTrue (by rw [hk, hv, ht])
        | .isFalse h => .isFalse fun e => h (List.tail_eq_of_cons_eq e)

end

instance : DecidableEq Json := jsonDecEq

/-- Opening brace character (written via its code point). -/
def lbrace : Char := Char.ofNat 123

/-- Closing brace character (written via its code point). -/
def rbrace : Char := Char.ofNat 125

/-- `json.dumps` escaping of a single character inside a string literal
(`ensure_ascii=True`, the default). -/
def escapeChar (c : Char) : String :=
  if c = '\"' then "\\\""
  else if c = '\\' then "\\\\"
  else if c = '\n' then "\\n"
  else if c = '\r' then "\\r"
  else if c = '\t' then "\\t"
  else if c.toNat = 8 then "\\b"
  else if c.toNat = 12 then "\\f"
  else if c.toNat < 32 ∨ c.toNat ≥ 127 then
    "\\u" ++ (Nat.toDigits 16 c.toNat).asString.leftpad 4 '0'
  else String.singleton c

/-- `json.dumps` rendering of a string literal. -/
def escapeString (s : String) : String :=
  "\"" ++ String.join (s.data.map escapeChar) ++ "\""

mutual

/-- `json.dumps(value)` with the default separators `", "` and `": "`. -/
def dumps : Json → String
  | .null => "null"
  | .bool b => cond b "true" "false"
  | .num n => toString n
  | .str s => escapeString s
  | .arr xs => "[" ++ dumpsArr xs ++ "]"
  | .obj kvs => String.singleton lbrace ++ dumpsObj kvs ++ String.singleton rbrace

/-- Comma-separated rendering of array elements. -/
def dumpsArr : List Json → String
  | [] => ""
  | [x] => dumps x
  | x :: y :: xs => dumps x ++ ", " ++ dumpsArr (y :: xs)

/-- Comma-separated rendering of object members. -/
def dumpsObj : List (String × Json) → String
  | [] => ""
  | [(k, v)] => escapeString k ++ ": " ++ dumps v
  | (k, v) :: m :: kvs => escapeString k ++ ": " ++ dumps v ++ ", " ++ dumpsObj (m :: kvs)

end

mutual

/-- `json.dumps(value, indent=2)`: `level` is the current nesting depth.
With an indent, Python switches the item separator to `","` + newline. -/
def dumpsInd (level : Nat) : Json → String
  | .null => "null"
  | .bool b => cond b "true" "false"
  | .num n => toString n
  | .str s => escapeString s
  | .arr [] => "[]"
  | .arr (x :: xs) =>
      "[\n" ++ dumpsIndArr level (x :: xs) ++ "\n" ++
        String.mk (List.replicate (2 * level) ' ') ++ "]"
  | .obj [] => String.singleton lbrace ++ String.singleton rbrace
  | .obj (kv :: kvs) =>
      String.singleton lbrace ++ "\n" ++ dumpsIndObj level (kv :: kvs) ++ "\n" ++
        String.mk (List.replicate (2 * level) ' ') ++ String.singleton rbrace

/-- Indented rendering of nonempty array elements. -/
def dumpsIndArr (level : Nat) : List Json → String
  | [] => ""
  | [x] => String.mk (List.replicate (2 * (level + 1)) ' ') ++ dumpsInd (level + 1) x
  | x :: y :: xs =>
      String.mk (List.replicate (2 * (level + 1)) ' ') ++ dumpsInd (level + 1) x ++
        ",\n" ++ dumpsIndArr level (y :: xs)

/-- Indented rendering of nonempty object members. -/
def dumpsIndObj (level : Nat) : List (String × Json) → String
  | [] => ""
  | [(k, v)] =>
      String.mk (List.replicate (2 * (level + 1)) ' ') ++ escapeString k ++ ": " ++
        dumpsInd (level + 1) v
  | (k, v) :: m :: kvs =>
      String.mk (List.replicate (2 * (level + 1)) ' ') ++ escapeString k ++ ": " ++
        dumpsInd (level + 1) v ++ ",\n" ++ dumpsIndObj level (m :: kvs)

end

/-! ### `json.loads`

A recursive-descent parser for the JSON subset of the model (strict mode,
as `json.loads` uses by default).  `fuel` bounds the recursion; `loads`
supplies enough fuel that it is never exhausted on its inputs. -/

/-- JSON whitespace recognised by the decoder. -/
def isJsonWs (c : Char) : Bool :=
  c = ' ' ∨ c = '\t' ∨ c = '\n' ∨ c = '\r'

/-- Drop leading JSON whitespace. -/
def skipWs (cs : List Char) : List Char := cs.dropWhile isJsonWs

/-- Value of one hexadecimal digit. -/
def hexDigitVal (c : Char) : Option Nat :=
  if '0' ≤ c ∧ c ≤ '9' then some (c.toNat - '0'.toNat)
  else if 'a' ≤ c ∧ c ≤ 'f' then some (c.toNat - 'a'.toNat + 10)
  else if 'A' ≤ c ∧ c ≤ 'F' then some (c.toNat - 'A'.toNat + 10)
  else none

/-- Parse the four hex digits of a `\u` escape. -/
def parseHex4 : List Char → Option (Nat × List Char)
  | a :: b :: c :: d :: rest => do
      let va ← hexDigitVal a
      let vb ← hexDigitVal b
      let vc ← hexDigitVal c
      let vd ← hexDigitVal d
      pure (((va * 16 + vb) * 16 + vc) * 16 + vd, rest)
  | _ => none

/-- Parse the body of a string literal after its opening quote; returns the
decoded characters and the remainder after the closing quote.  (Surrogate
pairs are not recombined; the handler never exchanges such data.) -/
def parseStrBody : Nat → List Char → Option (List Char × List Char)
  | 0, _ => none
  | _ + 1, [] => none
  | fuel + 1, c :: cs =>
    if c = '\"' then some ([], cs)
    else if c = '\\' then
      match cs with
      | [] => none
      | e :: cs' =>
        if e = '\"' ∨ e = '\\' ∨ e = '/' then
          (parseStrBody fuel cs').map fun (body, rest) =>
            ((if e = '/' then '/' else e) :: body, rest)
        else if e = 'b' then
          (parseStrBody fuel cs').map fun (body, rest) => (Char.ofNat 8 :: body, rest)
        else if e = 'f' then
          (parseStrBody fuel cs').map fun (body, rest) => (Char.ofNat 12 :: body, rest)
        else if e = 'n' then
          (parseStrBody fuel cs').map fun (body, rest) => ('\n' :: body, rest)
        else if e = 'r' then
          (parseStrBody fuel cs').map fun (body, rest) => ('\r' :: body, rest)
        else if e = 't' then
          (parseStrBody fuel cs').map fun (body, rest) => ('\t' :: body, rest)
        else if e = 'u' then
          match parseHex4 cs' with
          | none => none
          | some (code, cs'') =>
            (parseStrBody fuel cs'').map fun (body, rest) => (Char.ofNat code :: body, rest)
        else none
    else if c.toNat < 32 then none
    else (parseStrBody fuel cs).map fun (body, rest) => (c :: body, rest)

/-- Parse a run of decimal digits. -/
def parseDigits : List Char → Nat → List Char → (Nat × List Char)
  | acc₀, acc, c :: cs =>
    if '0' ≤ c ∧ c ≤ '9' then parseDigits acc₀ (acc * 10 + (c.toNat - '0'.toNat)) cs
    else (acc, c :: cs)
  | _, acc, [] => (acc, [])

/-- Parse a JSON number.  Only integers belong to the model's value grammar;
a fractional part or exponent makes the parse fail (the handler's data
carries no such numbers). -/
def parseNumber (cs : List Char) : Option (Json × List Char) :=
  let (neg, cs₁) := match cs with
    | '-' :: rest => (true, rest)
    | _ => (false, cs)
  match cs₁ with
  | c :: _ =>
    if '0' ≤ c ∧ c ≤ '9' then
      let (n, rest) := parseDigits [] 0 cs₁
      match rest with
      | d :: _ =>
        if d = '.' ∨ d = 'e' ∨ d = 'E' then none
        else some (Json.num (if neg then -(n : Int) else (n : Int)), rest)
      | [] => some (Json.num (if neg then -(n : Int) else (n : Int)), [])
    else none
  | [] => none

/-- Check for an exact keyword continuation. -/
def parseLit (lit : List Char) (cs : List Char) : Option (List Char) :=
  if cs.take lit.length = lit then some (cs.drop lit.length) else none

mutual

/-- Parse one JSON value (leading whitespace allowed). -/
def parseVal : Nat → List Char → Option (Json × List Char)
  | 0, _ => none
  | fuel + 1, cs =>
    match skipWs cs with
    | [] => none
    | c :: rest =>
      if c = '\"' then
        (parseStrBody (fuel + 1) rest).map fun (body, r) => (Json.str (String.mk body), r)
      else if c = lbrace then
        match skipWs rest with
        | c' :: rest' =>
          if c' = rbrace then some (Json.obj [], rest')
          else parseMembers fuel (c' :: rest') []
        | [] => none
      else if c = '[' then
        match skipWs rest with
        | ']' :: rest' => some (Json.arr [], rest')
        | other => parseElems fuel other []
      else if c = 't' then (parseLit ['r', 'u', 'e'] rest).map fun r => (Json.bool true, r)
      else if c = 'f' then (parseLit ['a', 'l', 's', 'e'] rest).map fun r => (Json.bool false, r)
      else if c = 'n' then (parseLit ['u', 'l', 'l'] rest).map fun r => (Json.null, r)
      else parseNumber (c :: rest)

/-- Parse the members of a nonempty object, accumulating in order. -/
def parseMembers : Nat → List Char → List (String × Json) → Option (Json × List Char)
  | 0, _, _ => none
  | fuel + 1, cs, acc =>
    match skipWs cs with
    | c :: rest =>
      if c = '\"' then
        match parseStrBody (fuel + 1) rest with
        | none => none
        | some (keyChars, afterKey) =>
          match skipWs afterKey with
          | ':' :: afterColon =>
            match parseVal fuel afterColon with
            | none => none
            | some (v, afterVal) =>
              let acc' := acc ++ [(String.mk keyChars, v)]
              match skipWs afterVal with
              | c' :: rest' =>
                if c' = ',' then parseMembers fuel rest' acc'
                else if c' = rbrace then some (Json.obj acc', rest')
                else none
              | [] => none
          | _ => none
      else none
    | [] => none

/-- Parse the elements of a nonempty array, accumulating in order. -/
def parseElems : Nat → List Char → List Json → Option (Json × List Char)
  | 0, _, _ => none
  | fuel + 1, cs, acc =>
    match parseVal fuel cs with
    | none => none
    | some (v, afterVal) =>
      let acc' := acc ++ [v]
      match skipWs afterVal with
      | ',' :: rest => parseElems fuel rest acc'
      | ']' :: rest => some (Json.arr acc', rest)
      | _ => none

end

/-- `json.loads`: parse a whole document, requiring only whitespace after
the value.  The fuel `2 * (s.length + 1)` exceeds the recursion any input
of this length can demand. -/
def loads (s : String) : Option Json :=
  match parseVal (2 * (s.length + 1)) s.data with
  | some (v, rest) => if skipWs rest = [] then some v else none
  | none => none

/-! ### Configuration (`CONFIG`) -/

/-- `CONFIG['stock_ids_table']`. -/
def stockIdsTable : String := "portfolio"

/-- `CONFIG['risk_profile']`. -/
def riskProfileTable : String := "portfolioprofile"

/-- `CONFIG['fundamentals_table']`. -/
def fundamentalsTable : String := "portfolio_stock_fundamentals"

/-- `CONFIG['technicals_table']`. -/
def technicalsTable : String := "portfolio_stock_trend"

/-- `CONFIG['earnings_table']`. -/
def earningsTable : String := "portfolio_earnings"

/-- `CONFIG['recommendations_table']`. -/
def recommendationsTable : String := "portfolio_recommendation"

/-- `CONFIG['portfolio_bias']`. -/
def portfolioBiasTable : String := "portfolio_bias"

/-- `CONFIG['api_delay']` (seconds). -/
def apiDelay : ℚ := 1 / 10

/-- `CONFIG['bedrock']` less the prompt templates.  The numeric fields come
from environment variables (`BEDROCK_MAX_TOKENS` etc.), so they are model
parameters rather than fixed constants. -/
structure BedrockConfig where
  modelId : String
  maxTokens : Int
  temperature : ℚ
  topP : ℚ
deriving DecidableEq

/-- The configuration when no environment variable overrides the defaults
(`amazon.nova-micro-v1:0`, 1000, 0.0, 0.9). -/
def defaultBedrockConfig : BedrockConfig :=
  { modelId := "amazon.nova-micro-v1:0", maxTokens := 1000, temperature := 0, topP := 9 / 10 }

/-! ### Exceptions -/

/-- Python exceptions observable in the handler, by provenance. -/
inductive PyErr where
  /-- `botocore.exceptions.ClientError`; `tokenLimitMsg` records whether
  `'token limit exceeded' in str(e)` holds. -/
  | clientError (code : String) (tokenLimitMsg : Bool)
  /-- `ValueError` (also `json.JSONDecodeError`'s base in the validation
  paths that raise it explicitly). -/
  | valueError (msg : String)
  /-- `json.loads` failure (`json.JSONDecodeError`). -/
  | jsonDecodeError
  /-- `KeyError` on a missing dict key. -/
  | keyError (key : String)
  /-- `TypeError` (e.g. subscripting a non-dict oracle reply). -/
  | typeError
  /-- `RecursionError`: CPython's recursion-depth limit was hit. -/
  | recursionError
  /-- The handler's own `Exception(f"Max retries ({n}) exceeded")`. -/
  | maxRetries (n : Nat)
  /-- Any other exception, identified by its message. -/
  | exn (msg : String)
deriving DecidableEq

/-- A model of `str(e)`, used where the handler embeds an exception's text
in an outcome record. -/
def errMsg : PyErr → String
  | .clientError code _ => "An error occurred (" ++ code ++ ")"
  | .valueError m => m
  | .jsonDecodeError => "Expecting value"
  | .keyError k => "'" ++ k ++ "'"
  | .typeError => "argument of type is not iterable"
  | .recursionError => "maximum recursion depth exceeded"
  | .maxRetries n => "Max retries (" ++ toString n ++ ") exceeded"
  | .exn m => m

/-! ### `AWSServiceBase.retry_with_backoff` -/

/-- `self.MAX_RETRIES`. -/
def MAX_RETRIES : Nat := 4

/-- `self.BASE_DELAY` (seconds). -/
def BASE_DELAY : ℚ := 3 / 4

/-- Default `retryable_errors` of `retry_with_backoff`. -/
def defaultRetryableErrors : List String :=
  ["ProvisionedThroughputExceededException", "ThrottlingException"]

/-- Outcome of one invocation of the wrapped function: it returns, raises a
`ClientError` with the given code, or raises some other exception (which
the wrapper does not catch). -/
inductive AttemptResult (α : Type) where
  | ok (a : α)
  | clientError (code : String)
  | exn (msg : String)

/-- Result of running the retry wrapper: the final value or exception, the
recorded `time.sleep` durations in order, and the number of invocations of
the wrapped function. -/
structure RetryOutcome (α : Type) where
  result : Except PyErr α
  sleeps : List ℚ
  ncalls : Nat

/-- The `while retry_count < self.MAX_RETRIES` loop of `retry_with_backoff`.
`fuel` is `MAX_RETRIES - rc` (the loop test), carried structurally; `rc` is
`retry_count`; `f k` is the outcome of the wrapped function's `k`-th
invocation (`k` equals `retry_count` at that iteration). -/
def retryGo (retryable : List String) (f : Nat → AttemptResult α) : Nat → Nat → RetryOutcome α
  | 0, _ => ⟨.error (.maxRetries MAX_RETRIES), [], 0⟩
  | fuel + 1, rc =>
    match f rc with
    | .ok a => ⟨.ok a, [], 1⟩
    | .exn m => ⟨.error (.exn m), [], 1⟩
    | .clientError code =>
      if code ∈ retryable ∧ rc < MAX_RETRIES then
        let waitTime := BASE_DELAY * 2 ^ (rc + 1)
        let r := retryGo retryable f fuel (rc + 1)
        ⟨r.result, waitTime :: r.sleeps, r.ncalls + 1⟩
      else ⟨.error (.clientError code false), [], 1⟩

/-- `retry_with_backoff(retryable_errors)` applied to a function whose
`k`-th invocation yields `f k`. -/
def retryWithBackoff (retryable : List String) (f : Nat → AttemptResult α) : RetryOutcome α :=
  retryGo retryable f MAX_RETRIES 0

/-! ### `BedrockManager` -/

/-- `self.MAX_TOKENS` of `BedrockManager`. -/
def BEDROCK_MAX_TOKENS : Int := 2000

/-- `self.CHUNK_SIZE` of `BedrockManager`. -/
def CHUNK_SIZE : Nat := 1500

/-- The per-value preamble of `chunk_data`'s loop body: serialize the
value and, when the serialization exceeds `CHUNK_SIZE`, truncate it with
the `"..."` marker and re-parse it with `json.loads` (whose failure
propagates as an exception).  Returns the final `value_str` used by the
size accounting together with the (possibly replaced) value. -/
def chunkValue (v : Json) : Except PyErr (String × Json) :=
  let valueStr := dumps v
  if valueStr.length > CHUNK_SIZE then
    let truncated := valueStr.take CHUNK_SIZE ++ "..."
    match loads truncated with
    | none => .error .jsonDecodeError   -- json.loads raises ValueError
    | some v' => .ok (truncated, v')
  else .ok (valueStr, v)

/-- `chunk_data`'s per-pair loop: current chunk, its running size, and the
finished chunks.  The running size is the sum of `len(json.dumps(value))`
over the current chunk's values (keys and JSON punctuation are not counted
by the source). -/
def chunkDataGo : List (String × Json) → List (String × Json) → Nat →
    List (List (String × Json)) → Except PyErr (List (List (String × Json)))
  | [], cur, _, acc =>
    -- `if current_chunk: chunks.append(current_chunk)`
    .ok (acc ++ if cur.isEmpty then [] else [cur])
  | (k, v) :: rest, cur, size, acc =>
    match chunkValue v with
    | .error e => .error e
    | .ok (valueStr, v') =>
      if size + valueStr.length > CHUNK_SIZE then
        chunkDataGo rest [(k, v')] valueStr.length (acc ++ [cur])
      else
        chunkDataGo rest (cur ++ [(k, v')]) (size + valueStr.length) acc

/-- `BedrockManager.chunk_data(data)`.  The `Except` records that the
truncation branch calls `json.loads` on the chopped serialization, whose
failure propagates as an exception. -/
def chunkData (data : List (String × Json)) : Except PyErr (List (List (String × Json))) :=
  chunkDataGo data [] 0 []

/-- `retryable_bedrock_errors`. -/
def retryableBedrockErrors : List String :=
  ["ThrottlingException", "ModelTimeoutException", "ServiceQuotaExceededException"]

/-- The dict serialized into the `invoke_model` request body in
`get_inference`: the `inferenceConfig` fields plus the single user message's
prompt text. -/
structure RequestBody where
  maxNewTokens : Int
  temperature : ℚ
  topP : ℚ
  prompt : String
deriving DecidableEq

/-- The body `get_inference` builds for a prompt:
`max_new_tokens = min(max_tokens, self.MAX_TOKENS)`. -/
def buildBody (cfg : BedrockConfig) (prompt : String) : RequestBody :=
  { maxNewTokens := min cfg.maxTokens BEDROCK_MAX_TOKENS
    temperature := cfg.temperature
    topP := cfg.topP
    prompt := prompt }

/-- The oracle's reply to one `invoke_model` call.  `ok text` carries the
first content block's text (the envelope unwrapping
`response_body['output']['message']['content'][0]['text']` is collapsed
into the dependency's answer).  `clientError` is a `botocore` `ClientError`
with its code and whether its text contains `'token limit exceeded'`;
`exn` is any other exception. -/
inductive OracleResp where
  | ok (text : String)
  | clientError (code : String) (tokenLimitMsg : Bool)
  | exn (msg : String)

/-- `prompt[:int(len(prompt)*0.7)]`.  For every length arising here the
float product `len * 0.7` rounds so that `int` of it is `7 * len / 10`
(the deficit of the double `0.7` times `len` is always under half an ulp
of the product). -/
def truncatePrompt (p : String) : String :=
  p.take (7 * p.length / 10)

/-- What one run of `get_inference` did: its return value or exception, the
request bodies sent to the oracle in order (across retries and recursive
truncation), and the `time.sleep` durations. -/
structure InferOutcome where
  result : Except PyErr Json
  calls : List RequestBody
  sleeps : List ℚ

/-- The `while retry_count < self.MAX_RETRIES` loop of `get_inference`.
`fuel` is `MAX_RETRIES - retry_count` (the loop test), carried
structurally, and `rc` is `retry_count`.  `deeper`, when present, performs
the recursive `get_inference(truncated_prompt)` call one CPython frame
deeper; it is absent when the next re-entry would exceed the interpreter's
recursion limit, in which case that re-entry raises `RecursionError`.  The
oracle is a deterministic function of the request body. -/
def giLoop (cfg : BedrockConfig) (oracle : RequestBody → OracleResp)
    (deeper : Option (String → InferOutcome)) : Nat → Nat → String → InferOutcome
  | 0, _, _ => ⟨.error (.maxRetries MAX_RETRIES), [], []⟩
  | fuel + 1, rc, prompt =>
    let body := buildBody cfg prompt
    match oracle body with
    | .ok text =>
      match loads text with
      | some j => ⟨.ok j, [body], []⟩
      | none => ⟨.error .jsonDecodeError, [body], []⟩
    | .exn m => ⟨.error (.exn m), [body], []⟩
    | .clientError code tokenLimitMsg =>
      if code = "ValidationException" ∧ tokenLimitMsg then
        match deeper with
        | none => ⟨.error .recursionError, [body], []⟩
        | some recurse =>
          let r := recurse (truncatePrompt prompt)
          ⟨r.result, body :: r.calls, r.sleeps⟩
      else if code ∈ retryableBedrockErrors ∧ rc < MAX_RETRIES then
        let waitTime := BASE_DELAY * 2 ^ (rc + 1)
        let r := giLoop cfg oracle deeper fuel (rc + 1) prompt
        ⟨r.result, body :: r.calls, waitTime :: r.sleeps⟩
      else ⟨.error (.clientError code tokenLimitMsg), [body], []⟩

/-- `BedrockManager.get_inference(prompt)` with remaining CPython recursion
budget `depth`: each invocation runs the retry loop, and its token-limit
branch re-enters the function one frame deeper until the budget is
exhausted. -/
def getInference (cfg : BedrockConfig) (oracle : RequestBody → OracleResp) :
    Nat → String → InferOutcome
  | 0, prompt => giLoop cfg oracle none MAX_RETRIES 0 prompt
  | depth + 1, prompt =>
    giLoop cfg oracle (some (getInference cfg oracle depth)) MAX_RETRIES 0 prompt

/-- `CONFIG['bedrock']['prompts']['stock_analysis']` (the Python
triple-quoted literal, including its indentation). -/
def stockAnalysisTemplate : String :=
  "\n            Analyze the following stock data and provide a BUY, SELL, or HOLD recommendation:\n            \n            Fundamentals: {fundamentals}\n            Technicals: {technicals}\n            Earnings and financial metrics with holdings data: {earnings}\n            RiskProfile: {riskprofile}\n            \n            Provide the recommendation in JSON format with:\n            - recommendation (BUY/SELL/HOLD)\n            - confidence_score (0-100)\n            - reasoning (brief explanation)\n\n            Respond with valid JSON only, without any additional text, explanations, or formatting.\n            Do not include markdown formatting or code blocks.\n            The response must be parseable by json.loads().\n            "

/-- `CONFIG['bedrock']['prompts']['portfolio_bias']`. -/
def portfolioBiasTemplate : String :=
  "\n            Analyze the following stock portfolio and detect any biases:\n            {portfolio_data}\n            \n            Evaluate:\n            - Sector concentration risk\n            - Portfolio volatility\n            - Market capitalization balance (Small, Mid, Large-cap)\n            - Diversification across industries\n            - Recommendations to optimize for lower risk and better diversification.\n            Provide a summary with bias rating from 1 (well-balanced) to 10 (highly biased)\n            Provide the analysis in JSON format with:\n            - bias_score\n            - volatility_risk\n            - sector_concentration\n            - recommendation\n            Respond with valid JSON only, without any additional text, explanations, or formatting.\n            Do not include markdown formatting or code blocks.\n            The response must be parseable by json.loads().\n            "

/-- One `str.format` placeholder substitution (the templates' substituted
values never themselves contain a placeholder, so sequential replacement
agrees with Python's simultaneous substitution). -/
def formatVar (template name value : String) : String :=
  template.replace (String.singleton lbrace ++ name ++ String.singleton rbrace) value

/-- First value of a key in an association-list dict. -/
def lookupKey (d : List (String × Json)) (k : String) : Option Json :=
  (d.find? fun kv => kv.1 = k).map Prod.snd

/-- Dict lookup on a `Json` object. -/
def jsonGet (j : Json) (k : String) : Option Json :=
  match j with
  | .obj d => lookupKey d k
  | _ => none

/-- `BedrockManager.build_analysis_prompt(stock_data)`: the template with
each section's `json.dumps(..., indent=2)` substituted. -/
def buildAnalysisPrompt (stockData : Json) : String :=
  formatVar (formatVar (formatVar (formatVar stockAnalysisTemplate
    "fundamentals" (dumpsInd 0 ((jsonGet stockData "fundamentals").getD .null)))
    "technicals" (dumpsInd 0 ((jsonGet stockData "technicals").getD .null)))
    "earnings" (dumpsInd 0 ((jsonGet stockData "earnings").getD .null)))
    "riskprofile" (dumpsInd 0 ((jsonGet stockData "riskprofile").getD .null))

/-- `BedrockManager.analyze_portfolio_bias_prompt(portfolio_data)`. -/
def analyzePortfolioBiasPrompt (portfolioData : Json) : String :=
  formatVar portfolioBiasTemplate "portfolio_data" (dumpsInd 0 portfolioData)

/-! ### Side effects and the dependency environment -/

/-- Externally visible side effects of a run, in order. -/
inductive Effect where
  /-- One `invoke_model` call with the serialized request body. -/
  | oracleCall (body : RequestBody)
  /-- The `update_item` upsert of `store_recommendation` (fields
  `recommendation`, `confidence_score`, `reasoning` plus a timestamp). -/
  | recWrite (table stockId : String) (recommendation confidence reasoning : Json)
  /-- The `update_item` upsert of `store_bias_details`, keyed by `userId`. -/
  | biasWrite (table : String) (userId : Json)
      (biasScore volatilityRisk sectorConcentration recommendation : Json)
  /-- The `scan(Limit=1)` of the risk-profile table inside
  `store_bias_details`. -/
  | riskScan
deriving DecidableEq

/-- A snapshot record: one DynamoDB item as an association-list dict. -/
abbrev Snapshot := List (String × Json)

/-- Behaviour of every external dependency of one orchestration run.  Each
field models one collaborator at its call boundary.

* `getStockData table id` is `DynamoDBManager.get_stock_data`'s outcome:
  the sanitized first item, `none` when no record exists, or a raised
  exception.
* `riskProfile` is the resolved value of the `DynamoDBManager.risk_profile`
  cached property (fetched at most once per run and shared read-only).
* `oracle` answers each Bedrock `invoke_model` request (deterministic in
  the request body).
* `depth` is the remaining CPython recursion budget for `get_inference`'s
  self-recursive truncation.
* `batchGet table ids` is `batch_get_stock_data`'s merged result map.
* `biasScan` is the risk-profile table scan made inside
  `store_bias_details` (performed anew on every call).
* `writeRec`/`writeBias` give each `update_item`'s outcome. -/
structure Env where
  cfg : BedrockConfig
  getStockData : String → String → Except PyErr (Option Snapshot)
  riskProfile : Option Snapshot
  oracle : RequestBody → OracleResp
  depth : Nat
  batchGet : String → List String → Except PyErr (List (String × Snapshot))
  biasScan : Except PyErr (List Snapshot)
  writeRec : String → String → Except PyErr Unit
  writeBias : String → Json → Except PyErr Unit

/-! ### `RecommendationManager` -/

/-- `DataValidationMixin.validate_required_fields`:
`all(field in data and data[field] is not None for field in required_fields)`. -/
def validateRequiredFields (data : Snapshot) (requiredFields : List String) : Bool :=
  requiredFields.all fun f =>
    match lookupKey data f with
    | some v => decide (v ≠ Json.null)
    | none => false

/-- The required fields of `store_recommendation`. -/
def requiredRecommendationFields : List String :=
  ["recommendation", "confidence_score", "reasoning"]

/-- The required fields of `store_bias_details`. -/
def requiredBiasFields : List String :=
  ["bias_score", "volatility_risk", "sector_concentration", "recommendation"]

/-- `RecommendationManager.store_recommendation(table_name, stock_id,
recommendation)`.  Validation precedes the write; the
`Decimal(str(confidence_score))` renormalization carries the raw value in
this model (no arithmetic is performed on it); a failed `update_item`
leaves no recorded write.  A non-dict oracle reply raises a `TypeError`
when validation subscripts it. -/
def storeRecommendation (env : Env) (tableName stockId : String) (recommendation : Json) :
    Except PyErr Bool × List Effect :=
  match recommendation with
  | .obj d =>
    if validateRequiredFields d requiredRecommendationFields then
      match env.writeRec tableName stockId with
      | .ok _ =>
        (.ok true,
          [.recWrite tableName stockId
            ((lookupKey d "recommendation").getD .null)
            ((lookupKey d "confidence_score").getD .null)
            ((lookupKey d "reasoning").getD .null)])
      | .error e => (.error e, [])
    else (.error (.valueError "Invalid recommendation data"), [])
  | _ => (.error .typeError, [])

/-- `RecommendationManager.store_bias_details(table_name, bias)`: validate,
scan the risk-profile table once (every call performs its own scan), pick
`items[0]['userId']` or the `"user-default"` sentinel, then upsert keyed by
that identity. -/
def storeBiasDetails (env : Env) (tableName : String) (bias : Json) :
    Except PyErr Bool × List Effect :=
  match bias with
  | .obj d =>
    if validateRequiredFields d requiredBiasFields then
      match env.biasScan with
      | .error e => (.error e, [.riskScan])
      | .ok items =>
        let userId : Except PyErr Json :=
          match items with
          | [] => .ok (Json.str "user-default")
          | item :: _ =>
            match lookupKey item "userId" with
            | some u => .ok u
            | none => .error (.keyError "userId")
        match userId with
        | .error e => (.error e, [.riskScan])
        | .ok uid =>
          match env.writeBias tableName uid with
          | .ok _ =>
            (.ok true,
              [.riskScan,
                .biasWrite tableName uid
                  ((lookupKey d "bias_score").getD .null)
                  ((lookupKey d "volatility_risk").getD .null)
                  ((lookupKey d "sector_concentration").getD .null)
                  ((lookupKey d "recommendation").getD .null)])
          | .error e => (.error e, [.riskScan])
    else (.error (.valueError "Invalid bias data"), [])
  | _ => (.error .typeError, [])

/-! ### `StockAnalysisOrchestrator` -/

/-- Python truthiness of a `get_stock_data` result: `None` and the empty
dict are falsy (`if not all([fundamentals, technicals, earnings])`). -/
def truthySnap : Option Snapshot → Bool
  | none => false
  | some s => !s.isEmpty

/-- `StockAnalysisOrchestrator._gather_stock_data(stock_id)`. -/
def gatherStockData (env : Env) (stockId : String) : Except PyErr (Option Json) := do
  let fundamentals ← env.getStockData fundamentalsTable stockId
  let technicals ← env.getStockData technicalsTable stockId
  let earnings ← env.getStockData earningsTable stockId
  if truthySnap fundamentals ∧ truthySnap technicals ∧ truthySnap earnings then
    pure (some (Json.obj
      [("fundamentals", Json.obj (fundamentals.getD [])),
       ("technicals", Json.obj (technicals.getD [])),
       ("earnings", Json.obj (earnings.getD [])),
       ("riskprofile", (env.riskProfile.map Json.obj).getD Json.null)]))
  else
    pure none

mutual

/-- `StockAnalysisOrchestrator.convert_decimals`: a structural traversal of
dicts and lists.  In the integer-number model the `Decimal → float` leaf
conversion carries the numeric value through unchanged. -/
def convertDecimals : Json → Json
  | .obj d => .obj (convertDecimalsObj d)
  | .arr xs => .arr (convertDecimalsArr xs)
  | .null => .null
  | .bool b => .bool b
  | .num n => .num n
  | .str s => .str s

/-- `convert_decimals` over a list. -/
def convertDecimalsArr : List Json → List Json
  | [] => []
  | x :: xs => convertDecimals x :: convertDecimalsArr xs

/-- `convert_decimals` over a dict's members. -/
def convertDecimalsObj : List (String × Json) → List (String × Json)
  | [] => []
  | (k, v) :: kvs => (k, convertDecimals v) :: convertDecimalsObj kvs

end

/-- The per-entity outcome record built by `process_stock`: the success
record carries keys `stock_id`, `success`, `recommendation`; a failure or
skip record carries `stock_id`, `success`, `error`. -/
structure StockResult where
  stock_id : String
  success : Bool
  error : Option String
  recommendation : Option Json
deriving DecidableEq

/-- `StockAnalysisOrchestrator.process_stock(stock_id)`: every exception in
the body is caught and converted into an outcome record with
`'success': False` and the exception's text. -/
def processStock (env : Env) (stockId : String) : StockResult × List Effect :=
  match gatherStockData env stockId with
  | .error e => (⟨stockId, false, some (errMsg e), none⟩, [])
  | .ok none => (⟨stockId, false, some "Missing data", none⟩, [])
  | .ok (some stockData) =>
    let prompt := buildAnalysisPrompt (convertDecimals stockData)
    let gi := getInference env.cfg env.oracle env.depth prompt
    let oracleEffects := gi.calls.map Effect.oracleCall
    match gi.result with
    | .error e => (⟨stockId, false, some (errMsg e), none⟩, oracleEffects)
    | .ok recommendation =>
      match storeRecommendation env recommendationsTable stockId recommendation with
      | (.error e, wEff) => (⟨stockId, false, some (errMsg e), none⟩, oracleEffects ++ wEff)
      | (.ok success, wEff) =>
        (⟨stockId, success, none, if success then some recommendation else none⟩,
          oracleEffects ++ wEff)

/-- A `batch_get_stock_data` result map as a JSON object. -/
def snapMapToJson (m : List (String × Snapshot)) : Json :=
  .obj (m.map fun kv => (kv.1, Json.obj kv.2))

/-- The `{'success': False, 'error': str(e)}` record returned by
`process_portfolio`'s exception handler. -/
def processErrorJson (e : PyErr) : Json :=
  .obj [("success", .bool false), ("error", .str (errMsg e))]

/-- `StockAnalysisOrchestrator.process_portfolio(stock_ids)`: batched
snapshots for two categories, one bias inference, one
`store_bias_details`; every exception is caught and reported as a degraded
result object. -/
def processPortfolio (env : Env) (stockIds : List String) : Json × List Effect :=
  match env.batchGet fundamentalsTable stockIds with
  | .error e => (processErrorJson e, [])
  | .ok fundamentals =>
    match env.batchGet technicalsTable stockIds with
    | .error e => (processErrorJson e, [])
    | .ok technicals =>
      let portfolioData := Json.obj
        [("fundamentals", snapMapToJson fundamentals),
         ("technicals", snapMapToJson technicals)]
      let prompt := analyzePortfolioBiasPrompt (convertDecimals portfolioData)
      let gi := getInference env.cfg env.oracle env.depth prompt
      let oracleEffects := gi.calls.map Effect.oracleCall
      match gi.result with
      | .error e => (processErrorJson e, oracleEffects)
      | .ok biasAnalysis =>
        match storeBiasDetails env portfolioBiasTable biasAnalysis with
        | (.error e, bEff) => (processErrorJson e, oracleEffects ++ bEff)
        | (.ok _, bEff) => (biasAnalysis, oracleEffects ++ bEff)

/-! ### `lambda_handler` -/

/-- The JSON rendering of one per-stock result in the response body. -/
def resultToJson (r : StockResult) : Json :=
  .obj ([("stock_id", .str r.stock_id), ("success", .bool r.success)] ++
    match r.error with
    | some m => [("error", .str m)]
    | none => [("recommendation", r.recommendation.getD .null)])

/-- The handler's per-stock loop: append each result and bump
`successful_count` or `error_count` according to `result['success']`. -/
def runStocksAux (env : Env) :
    List String → List StockResult × Nat × Nat × List Effect →
    List StockResult × Nat × Nat × List Effect
  | [], acc => acc
  | stockId :: rest, (results, succ, fail, effs) =>
    let (r, eff) := processStock env stockId
    runStocksAux env rest
      (results ++ [r],
       succ + (if r.success then 1 else 0),
       fail + (if r.success then 0 else 1),
       effs ++ eff)

/-- The handler's HTTP-style response: status code plus the dict handed to
`json.dumps(..., default=str)` (stated on the object being serialized). -/
structure LambdaResponse where
  statusCode : Nat
  body : Json
deriving DecidableEq

/-- `lambda_handler(event, context)`.  `enumeration` is the outcome of
`get_stock_ids(CONFIG['stock_ids_table'])`: the only statement whose
exception reaches the top-level handler and produces the 500 response. -/
def lambdaHandler (env : Env) (enumeration : Except PyErr (List String)) :
    LambdaResponse × List Effect :=
  match enumeration with
  | .error e =>
    (⟨500, Json.obj [("error", .str (errMsg e)), ("message", .str "Internal server error")]⟩, [])
  | .ok stockIds =>
    let pa := processPortfolio env stockIds
    let run := runStocksAux env stockIds ([], 0, 0, [])
    (⟨200, Json.obj
        [("message", .str "Processing complete"),
         ("total_processed", .num stockIds.length),
         ("successful", .num run.2.1),
         ("failed", .num run.2.2.1),
         ("portfolio_analysis", pa.1),
         ("results", .arr (run.1.map resultToJson))]⟩,
      pa.2 ++ run.2.2.2)

/-! ### `DynamoDBManager.get_stock_ids` -/

/-- The `while True` scan loop of `get_stock_ids` over a store that serves
its collection as successive pages, each scan returning one page and a
cursor (`LastEvaluatedKey`) iff further pages remain.  Returns the
concatenated items and the number of scan calls.  An empty store still
answers one scan (with no items and no cursor). -/
def scanAll : List (List String) → List String × Nat
  | [] => ([], 1)
  | [page] => (page, 1)
  | page :: next :: rest =>
    let r := scanAll (next :: rest)
    (page ++ r.1, r.2 + 1)

/-- `get_stock_ids(table_name)`: scan until no cursor remains, then
`list(set(stock_ids))`.  Python's set order is unspecified; the model
dedups keeping first occurrences, and properties are stated up to set
equality. -/
def getStockIds (pages : List (List String)) : List String × Nat :=
  let r := scanAll pages
  (r.1.dedup, r.2)

/-! ### Observers and concrete fixtures used in the statements below -/

/-- The key list of a JSON object (for statements about a response's
shape). -/
def jsonKeys : Json → List String
  | .obj m => m.map Prod.fst
  | _ => []

/-- The prompt `process_stock` submits for a stock, when its data gathering
succeeds with all three categories present. -/
def analysisPromptFor (env : Env) (stockId : String) : Option String :=
  match gatherStockData env stockId with
  | .ok (some stockData) => some (buildAnalysisPrompt (convertDecimals stockData))
  | _ => none

/-- An oracle that answers every call with the token-limit `ClientError`
(`ValidationException` whose text contains `'token limit exceeded'`). -/
def tokenLimitOracle : RequestBody → OracleResp :=
  fun _ => .clientError "ValidationException" true

/-- A well-formed recommendation reply. -/
def recObj : Json :=
  .obj [("recommendation", .str "BUY"), ("confidence_score", .num 80), ("reasoning", .str "ok")]

/-- The oracle text carrying `recObj`. -/
def recText : String := dumps recObj

/-- A well-formed bias reply. -/
def biasObj : Json :=
  .obj [("bias_score", .num 5), ("volatility_risk", .str "low"),
        ("sector_concentration", .str "tech"), ("recommendation", .str "diversify")]

/-- A 1600-character key (its serialization overhead is what
`chunk_data`'s size accounting ignores). -/
def bigKey : String := String.mk (List.replicate 1600 'a')

/-- A 1600-character string value: its serialization (1602 characters)
exceeds `CHUNK_SIZE`, so `chunk_data` takes the truncation branch on it. -/
def bigStrVal : String := String.mk (List.replicate 1600 'b')

/-- Environment for the isolation run: stocks have complete data and a
well-behaved oracle and store, except that every storage read for stock
`"B"` raises. -/
def envIso : Env where
  cfg := defaultBedrockConfig
  getStockData := fun _ stockId =>
    if stockId = "B" then .error (.exn "injected failure for B") else .ok (some [("v", .num 1)])
  riskProfile := none
  oracle := fun _ => .ok recText
  depth := 1000
  batchGet := fun _ _ => .error (.exn "portfolio source down")
  biasScan := .ok []
  writeRec := fun _ _ => .ok ()
  writeBias := fun _ _ => .ok ()

/-- `envIso` with a different injected failure for stock `"B"`: all
dependencies touched by stock `"A"`'s processing are unchanged. -/
def envIso' : Env :=
  { envIso with
    getStockData := fun table stockId =>
      if stockId = "B" then .error (.exn "a different failure for B")
      else envIso.getStockData table stockId }

/-- Environment in which every stock's earnings snapshot is absent while
fundamentals and technicals are present. -/
def envMissing : Env where
  cfg := defaultBedrockConfig
  getStockData := fun table _ =>
    if table = earningsTable then .ok none else .ok (some [("v", .num 1)])
  riskProfile := none
  oracle := fun _ => .exn "oracle must not be called"
  depth := 1000
  batchGet := fun _ _ => .error (.exn "portfolio source down")
  biasScan := .ok []
  writeRec := fun _ _ => .ok ()
  writeBias := fun _ _ => .ok ()

/-- Environment for the bias-store runs: the risk-profile table is empty
and writes succeed. -/
def envBias : Env where
  cfg := defaultBedrockConfig
  getStockData := fun _ _ => .ok none
  riskProfile := none
  oracle := fun _ => .exn "unused"
  depth := 1000
  batchGet := fun _ _ => .ok []
  biasScan := .ok []
  writeRec := fun _ _ => .ok ()
  writeBias := fun _ _ => .ok ()

/-- A wrapped operation that is throttled once and then succeeds. -/
def fRetryOnce : Nat → AttemptResult Unit :=
  fun k => if k = 0 then .clientError "ThrottlingException" else .ok ()

/-- Recognizes the risk-profile-table scan effect (for counting
owner-identity lookups). -/
def isRiskScan : Effect → Bool
  | .riskScan => true
  | _ => false

/-! ## Helper lemmas -/

theorem scanAll_items : ∀ pages : List (List String), (scanAll pages).1 = pages.flatten
  | [] => by simp [scanAll]
  | [_] => by simp [scanAll]
  | _ :: next :: rest => by
    simp [scanAll, scanAll_items (next :: rest)]

theorem scanAll_count : ∀ pages : List (List String), (scanAll pages).2 = max pages.length 1
  | [] => by simp [scanAll]
  | [_] => by simp [scanAll]
  | _ :: next :: rest => by
    have h := scanAll_count (next :: rest)
    simp [scanAll, h]

/-- Every request body the retry loop sends is built by `buildBody` from
the run's configuration (given that the recursive call also only sends
such bodies). -/
theorem giLoop_calls_built (cfg : BedrockConfig) (oracle : RequestBody → OracleResp)
    (deeper : Option (String → InferOutcome))
    (hdeep : ∀ f, deeper = some f → ∀ q, ∀ b ∈ (f q).calls, ∃ r, b = buildBody cfg r) :
    ∀ fuel rc prompt, ∀ b ∈ (giLoop cfg oracle deeper fuel rc prompt).calls,
      ∃ q, b = buildBody cfg q := by
  intro fuel
  induction fuel with
  | zero => intro rc prompt b hb; simp [giLoop] at hb
  | succ fuel ih =>
    intro rc prompt b hb
    rw [giLoop.eq_def] at hb
    rcases ho : oracle (buildBody cfg prompt) with text | ⟨code, tok⟩ | m
    · simp only [ho] at hb
      rcases hl : loads text with _ | j <;> simp only [hl] at hb <;> simp at hb <;>
        exact ⟨prompt, hb⟩
    · simp only [ho] at hb
      by_cases htok : code = "ValidationException" ∧ tok = true
      · simp only [if_pos htok] at hb
        rcases hd : deeper with _ | f <;> simp only [hd] at hb <;> simp at hb
        · exact ⟨prompt, hb⟩
        · rcases hb with hb | hb
          · exact ⟨prompt, hb⟩
          · exact hdeep f hd (truncatePrompt prompt) b hb
      · simp only [if_neg htok] at hb
        by_cases hretry : code ∈ retryableBedrockErrors ∧ rc < MAX_RETRIES
        · simp only [if_pos hretry] at hb
          simp at hb
          rcases hb with hb | hb
          · exact ⟨prompt, hb⟩
          · exact ih (rc + 1) prompt b hb
        · simp only [if_neg hretry] at hb
          simp at hb
          exact ⟨prompt, hb⟩
    · simp only [ho] at hb
      simp at hb
      exact ⟨prompt, hb⟩

/-- Every request body `get_inference` sends is built by `buildBody` from
the run's configuration. -/
theorem getInference_calls_built (cfg : BedrockConfig) (oracle : RequestBody → OracleResp) :
    ∀ depth prompt, ∀ b ∈ (getInference cfg oracle depth prompt).calls,
      ∃ q, b = buildBody cfg q := by
  intro depth
  induction depth with
  | zero =>
    intro prompt
    exact giLoop_calls_built cfg oracle none (by intro f h; exact absurd h (by simp))
      MAX_RETRIES 0 prompt
  | succ depth ih =>
    intro prompt
    refine giLoop_calls_built cfg oracle (some (getInference cfg oracle depth)) ?_
      MAX_RETRIES 0 prompt
    intro f hf q b hb
    rw [Option.some_inj] at hf
    subst hf
    exact ih q b hb

/-- Under the always-token-limit oracle, a loop entry with no recursion
budget left raises `RecursionError` after one oracle call. -/
theorem giLoop_tokenLimit_none (cfg : BedrockConfig) (fuel rc : Nat) (prompt : String) :
    giLoop cfg tokenLimitOracle none (fuel + 1) rc prompt =
      ⟨.error .recursionError, [buildBody cfg prompt], []⟩ := by
  rw [giLoop.eq_def]
  simp [tokenLimitOracle]

/-- Under the always-token-limit oracle, a loop entry with recursion budget
left makes one oracle call and re-enters on the truncated prompt. -/
theorem giLoop_tokenLimit_some (cfg : BedrockConfig) (f : String → InferOutcome)
    (fuel rc : Nat) (prompt : String) :
    giLoop cfg tokenLimitOracle (some f) (fuel + 1) rc prompt =
      ⟨(f (truncatePrompt prompt)).result,
        buildBody cfg prompt :: (f (truncatePrompt prompt)).calls,
        (f (truncatePrompt prompt)).sleeps⟩ := by
  rw [giLoop.eq_def]
  simp [tokenLimitOracle]

/-- Full trace of `get_inference` under the always-token-limit oracle:
`depth + 1` oracle calls on the iterated 70% truncations of the prompt, no
sleeps, and a final `RecursionError`. -/
theorem getInference_tokenLimit_trace (cfg : BedrockConfig) :
    ∀ depth prompt,
      getInference cfg tokenLimitOracle depth prompt =
        ⟨.error .recursionError,
          (List.range (depth + 1)).map fun k => buildBody cfg (truncatePrompt^[k] prompt),
          []⟩ := by
  intro depth
  induction depth with
  | zero =>
    intro prompt
    show giLoop cfg tokenLimitOracle none MAX_RETRIES 0 prompt = _
    rw [show MAX_RETRIES = 3 + 1 from rfl, giLoop_tokenLimit_none]
    rfl
  | succ depth ih =>
    intro prompt
    show giLoop cfg tokenLimitOracle (some (getInference cfg tokenLimitOracle depth))
        MAX_RETRIES 0 prompt = _
    rw [show MAX_RETRIES = 3 + 1 from rfl, giLoop_tokenLimit_some, ih]
    simp [List.range_succ_eq_map, Function.comp_def, Function.iterate_succ_apply]

/-! ## Claims -/

/-- C8: for every backing store serving the collection split across any
number of cursor-linked pages, `get_stock_ids` makes exactly one scan per
page (one initial scan plus one per returned cursor, so `max(#pages, 1)`
scans in total, and in particular it terminates), and returns exactly the
deduplicated union of the identifiers of all pages. -/
theorem C8_pagination_complete (pages : List (List String)) :
    (getStockIds pages).2 = max pages.length 1 ∧
    (getStockIds pages).1.Nodup ∧
    (getStockIds pages).1.toFinset = pages.flatten.toFinset := by
  refine ⟨?_, ?_, ?_⟩
  · simp [getStockIds, scanAll_count]
  · simp [getStockIds, List.nodup_dedup]
  · ext x
    simp [getStockIds, scanAll_items, List.mem_toFinset, List.mem_dedup]

/-- C10: every request `get_inference` serializes for the oracle asks for
`min(configured max tokens, 2000)` output tokens, hence never more than
the hard cap 2000. -/
theorem C10_max_new_tokens_cap (cfg : BedrockConfig) (oracle : RequestBody → OracleResp)
    (depth : Nat) (prompt : String) :
    ∀ body ∈ (getInference cfg oracle depth prompt).calls,
      body.maxNewTokens = min cfg.maxTokens BEDROCK_MAX_TOKENS ∧ body.maxNewTokens ≤ 2000 := by
  intro body hb
  obtain ⟨q, rfl⟩ := getInference_calls_built cfg oracle depth prompt body hb
  refine ⟨rfl, ?_⟩
  have h : min cfg.maxTokens BEDROCK_MAX_TOKENS ≤ BEDROCK_MAX_TOKENS := min_le_right _ _
  simp only [buildBody, BEDROCK_MAX_TOKENS] at h ⊢
  exact h

/-- Witness for C10 at a concrete configuration (`BEDROCK_MAX_TOKENS`
environment value 99999) and call. -/
theorem C10_witness :
    (buildBody ⟨"m", 99999, 0, 9/10⟩ "p").maxNewTokens = min 99999 BEDROCK_MAX_TOKENS ∧
    (buildBody ⟨"m", 99999, 0, 9/10⟩ "p").maxNewTokens ≤ 2000 := by
  have hmem : buildBody ⟨"m", 99999, 0, 9/10⟩ "p" ∈
      (getInference ⟨"m", 99999, 0, 9/10⟩ tokenLimitOracle 0 "p").calls := by
    simp [getInference, giLoop, MAX_RETRIES, tokenLimitOracle]
  exact C10_max_new_tokens_cap ⟨"m", 99999, 0, 9/10⟩ tokenLimitOracle 0 "p" _ hmem

/-- C5: a verdict object missing any of the three required fields (or
carrying it as `None`) makes `store_recommendation` raise the validation
`ValueError` with zero writes performed: validation precedes any write. -/
theorem C5_validation_gate (env : Env) (tableName stockId : String) (d : Snapshot)
    (h : ∃ f ∈ requiredRecommendationFields, lookupKey d f = none ∨ lookupKey d f = some .null) :
    storeRecommendation env tableName stockId (.obj d) =
      (.error (.valueError "Invalid recommendation data"), []) := by
  have hv : validateRequiredFields d requiredRecommendationFields = false := by
    obtain ⟨f, hf, hcase⟩ := h
    rw [validateRequiredFields, List.all_eq_false]
    refine ⟨f, hf, ?_⟩
    rcases hcase with hc | hc <;> simp [hc]
  simp [storeRecommendation, hv]

/-- Witness for C5: a reply missing `confidence_score` is rejected with no
write. -/
theorem C5_witness :
    storeRecommendation envBias recommendationsTable "AAA"
        (.obj [("recommendation", .str "BUY"), ("reasoning", .str "ok")]) =
      (.error (.valueError "Invalid recommendation data"), []) :=
  C5_validation_gate envBias recommendationsTable "AAA" _
    ⟨"confidence_score", by simp [requiredRecommendationFields], by simp [lookupKey]⟩

/-- C2 (amended): under an oracle that always raises the token-limit error,
`get_inference` retries on the prompt truncated to `int(0.7 * len)` each
time, reaching the empty prompt (the truncation of a nonempty prompt is
strictly shorter and the empty prompt truncates to itself, so the empty
prompt is resubmitted), and terminates only because the recursion-depth
budget runs out: with budget `depth` it makes exactly `depth + 1` oracle
calls on the iterated truncations, sleeps never, and ends by raising a
`RecursionError`-terminal error; there is no positive-length floor at
which it stops truncating. -/
theorem C2_token_limit_truncation (cfg : BedrockConfig) (depth : Nat) (prompt : String) :
    getInference cfg tokenLimitOracle depth prompt =
      ⟨.error .recursionError,
        (List.range (depth + 1)).map fun k => buildBody cfg (truncatePrompt^[k] prompt),
        []⟩ ∧
    truncatePrompt "" = "" ∧
    (prompt ≠ "" → (truncatePrompt prompt).length < prompt.length) := by
  refine ⟨getInference_tokenLimit_trace cfg depth prompt, rfl, ?_⟩
  intro hne
  have hlen : prompt.length ≠ 0 := fun h => hne (by
    cases prompt with
    | mk data => cases data with
      | nil => rfl
      | cons c cs => simp [String.length] at h)
  have hlt : 7 * prompt.length / 10 < prompt.length := by omega
  calc (truncatePrompt prompt).length
      ≤ 7 * prompt.length / 10 := by
        simp only [truncatePrompt, String.take_eq, String.length, List.length_take]
        exact min_le_left _ _
    _ < prompt.length := hlt

/-- Witness for C2's theorem at a concrete prompt, discharging the
nonempty-prompt hypothesis. -/
theorem C2_token_limit_truncation_witness :
    (getInference defaultBedrockConfig tokenLimitOracle 2 "abcde").result =
      .error .recursionError ∧
    ("abcde" : String) ≠ "" ∧ (truncatePrompt "abcde").length < ("abcde" : String).length := by
  have h := C2_token_limit_truncation defaultBedrockConfig 2 "abcde"
  refine ⟨by rw [h.1], by decide, h.2.2 (by decide)⟩

/-- Counterexample for C2 as stated: with the always-token-limit oracle and
recursion budget 4, the run truncates the prompt `"ab"` down to the empty
string and keeps resubmitting the empty prompt (calls `"ab"`, `"a"`, `""`,
`""`, `""`) — it does not raise a terminal error at a minimal positive
floor instead of truncating to empty; the terminal error is the
recursion-limit `RecursionError`. -/
theorem C2_counterexample :
    (getInference defaultBedrockConfig tokenLimitOracle 4 "ab").calls.map RequestBody.prompt =
      ["ab", "a", "", "", ""] ∧
    (getInference defaultBedrockConfig tokenLimitOracle 4 "ab").result =
      .error .recursionError := by
  constructor <;> decide

/-- The retry loop runs through `k` consecutive retryable failures,
sleeping `BASE_DELAY * 2^(rc + j + 1)` before each following attempt, and
continues as the remaining loop. -/
theorem retryGo_skip {α : Type} (retryable : List String) (f : Nat → AttemptResult α) :
    ∀ k fuel rc, k ≤ fuel → rc + fuel = MAX_RETRIES →
      (∀ j, j < k → ∃ c, f (rc + j) = .clientError c ∧ c ∈ retryable) →
      retryGo retryable f fuel rc =
        ⟨(retryGo retryable f (fuel - k) (rc + k)).result,
         ((List.range k).map fun j => BASE_DELAY * 2 ^ (rc + j + 1)) ++
           (retryGo retryable f (fuel - k) (rc + k)).sleeps,
         k + (retryGo retryable f (fuel - k) (rc + k)).ncalls⟩ := by
  intro k
  induction k with
  | zero =>
    intro fuel rc _ _ _
    simp
  | succ k ih =>
    intro fuel rc hk hinv hfail
    obtain ⟨fuel, rfl⟩ : ∃ m, fuel = m + 1 := ⟨fuel - 1, by omega⟩
    obtain ⟨c0, hc0, hc0mem⟩ := hfail 0 (by omega)
    have hc0' : f rc = .clientError c0 := by simpa using hc0
    have ihh := ih fuel (rc + 1) (by omega) (by omega) (by
      intro j hj
      obtain ⟨c, hc, hmem⟩ := hfail (j + 1) (by omega)
      exact ⟨c, by
        have harg : rc + 1 + j = rc + (j + 1) := by omega
        rw [harg]
        exact hc, hmem⟩)
    rw [retryGo.eq_def]
    dsimp only
    rw [hc0']
    dsimp only
    rw [if_pos ⟨hc0mem, show rc < MAX_RETRIES by omega⟩]
    rw [ihh]
    dsimp only
    have harith : rc + 1 + k = rc + (k + 1) := by omega
    have hfuel : fuel + 1 - (k + 1) = fuel - k := by omega
    simp only [harith, hfuel, RetryOutcome.mk.injEq]
    refine ⟨by trivial, ?_, by omega⟩
    rw [List.range_succ_eq_map]
    simp only [List.map_cons, List.map_map, Function.comp_def, List.cons_append, Nat.add_zero]
    refine congrArg₂ _ rfl (congrArg₂ _ ?_ rfl)
    refine List.map_congr_left ?_
    intro j _
    congr 2
    omega

/-- C4 (amended): a `retry_with_backoff`-wrapped function is invoked up to
4 times; before the `k`-th retry the wrapper sleeps exactly
`0.75 * 2 ^ k` seconds (pure exponential, no jitter); a fatal outcome — a
`ClientError` whose code is not retryable, or any non-`ClientError`
exception — propagates immediately with no further sleep; but on the 4th
consecutive retryable failure the wrapper sleeps a final
`0.75 * 2 ^ 4 = 12` seconds before raising the
`Max retries (4) exceeded` exhaustion error, so exhaustion is preceded by
one extra sleep rather than propagating immediately. -/
theorem C4_backoff_schedule {α : Type} (retryable : List String) (f : Nat → AttemptResult α) :
    (∀ k a, k < MAX_RETRIES →
      (∀ j, j < k → ∃ c, f j = .clientError c ∧ c ∈ retryable) →
      f k = .ok a →
      retryWithBackoff retryable f =
        ⟨.ok a, (List.range k).map fun j => BASE_DELAY * 2 ^ (j + 1), k + 1⟩) ∧
    (∀ k c, k < MAX_RETRIES →
      (∀ j, j < k → ∃ c', f j = .clientError c' ∧ c' ∈ retryable) →
      f k = .clientError c → c ∉ retryable →
      retryWithBackoff retryable f =
        ⟨.error (.clientError c false),
          (List.range k).map fun j => BASE_DELAY * 2 ^ (j + 1), k + 1⟩) ∧
    (∀ k m, k < MAX_RETRIES →
      (∀ j, j < k → ∃ c, f j = .clientError c ∧ c ∈ retryable) →
      f k = .exn m →
      retryWithBackoff retryable f =
        ⟨.error (.exn m), (List.range k).map fun j => BASE_DELAY * 2 ^ (j + 1), k + 1⟩) ∧
    ((∀ j, j < MAX_RETRIES → ∃ c, f j = .clientError c ∧ c ∈ retryable) →
      retryWithBackoff retryable f =
        ⟨.error (.maxRetries MAX_RETRIES),
          (List.range MAX_RETRIES).map fun j => BASE_DELAY * 2 ^ (j + 1), MAX_RETRIES⟩) := by
  have hskip : ∀ k, k ≤ MAX_RETRIES →
      (∀ j, j < k → ∃ c, f j = .clientError c ∧ c ∈ retryable) →
      retryWithBackoff retryable f =
        ⟨(retryGo retryable f (MAX_RETRIES - k) k).result,
         ((List.range k).map fun j => BASE_DELAY * 2 ^ (j + 1)) ++
           (retryGo retryable f (MAX_RETRIES - k) k).sleeps,
         k + (retryGo retryable f (MAX_RETRIES - k) k).ncalls⟩ := by
    intro k hk hfail
    have h := retryGo_skip retryable f k MAX_RETRIES 0 hk (by omega) (by
      intro j hj
      obtain ⟨c, hc, hmem⟩ := hfail j hj
      exact ⟨c, by simpa using hc, hmem⟩)
    rw [retryWithBackoff, h]
    simp
  refine ⟨?_, ?_, ?_, ?_⟩
  · intro k a hk hfail hok
    rw [hskip k (by omega) hfail]
    obtain ⟨m, hm⟩ : ∃ m, MAX_RETRIES - k = m + 1 := ⟨MAX_RETRIES - k - 1, by omega⟩
    rw [hm, retryGo.eq_def]
    dsimp only
    rw [hok]
    simp
  · intro k c hk hfail hcl hnotr
    rw [hskip k (by omega) hfail]
    obtain ⟨m, hm⟩ : ∃ m, MAX_RETRIES - k = m + 1 := ⟨MAX_RETRIES - k - 1, by omega⟩
    rw [hm, retryGo.eq_def]
    dsimp only
    rw [hcl]
    dsimp only
    rw [if_neg (by simp [hnotr])]
    simp
  · intro k m hk hfail hexn
    rw [hskip k (by omega) hfail]
    obtain ⟨m', hm⟩ : ∃ m', MAX_RETRIES - k = m' + 1 := ⟨MAX_RETRIES - k - 1, by omega⟩
    rw [hm, retryGo.eq_def]
    dsimp only
    rw [hexn]
    simp
  · intro hfail
    rw [hskip MAX_RETRIES le_rfl hfail]
    rw [show MAX_RETRIES - MAX_RETRIES = 0 from by omega, retryGo.eq_def]
    dsimp only
    simp

/-- Witness for C4's theorem: one throttling failure, then success — the
wrapper returns the value after a single 1.5-second sleep and two
invocations. -/
theorem C4_witness :
    (retryWithBackoff defaultRetryableErrors fRetryOnce).result = .ok () ∧
    (retryWithBackoff defaultRetryableErrors fRetryOnce).sleeps = [3/2] ∧
    (retryWithBackoff defaultRetryableErrors fRetryOnce).ncalls = 2 := by
  have h := (C4_backoff_schedule defaultRetryableErrors fRetryOnce).1 1 ()
    (by norm_num [MAX_RETRIES])
    (by
      intro j hj
      obtain rfl : j = 0 := by omega
      exact ⟨"ThrottlingException", rfl, by simp [defaultRetryableErrors]⟩)
    rfl
  rw [h]
  refine ⟨rfl, ?_, rfl⟩
  norm_num [BASE_DELAY, List.range_succ]

/-- Counterexample for C4 as stated: with every attempt throttled, the
wrapper makes 4 invocations but records 4 sleeps — 1.5, 3, 6 and 12
seconds — so the 12-second sleep after the 4th retryable failure precedes
no further attempt: attempt exhaustion is reached only after that final
sleep, not "immediately without any further sleeping". -/
theorem C4_counterexample :
    (retryWithBackoff defaultRetryableErrors
        (fun _ => AttemptResult.clientError "ThrottlingException" (α := Unit))).result =
      .error (.maxRetries 4) ∧
    (retryWithBackoff defaultRetryableErrors
        (fun _ => AttemptResult.clientError "ThrottlingException" (α := Unit))).sleeps =
      [3/2, 3, 6, 12] ∧
    (retryWithBackoff defaultRetryableErrors
        (fun _ => AttemptResult.clientError "ThrottlingException" (α := Unit))).ncalls = 4 := by
  have h := retryGo_skip defaultRetryableErrors
    (fun _ => AttemptResult.clientError "ThrottlingException" (α := Unit))
    MAX_RETRIES MAX_RETRIES 0 le_rfl (by omega)
    (fun j _ => ⟨"ThrottlingException", rfl, by simp [defaultRetryableErrors]⟩)
  have h0 : retryGo defaultRetryableErrors
      (fun _ => AttemptResult.clientError "ThrottlingException" (α := Unit))
      (MAX_RETRIES - MAX_RETRIES) (0 + MAX_RETRIES) =
      ⟨.error (.maxRetries MAX_RETRIES), [], 0⟩ := by
    rw [show MAX_RETRIES - MAX_RETRIES = 0 from by omega, retryGo.eq_def]
  have hw : retryWithBackoff defaultRetryableErrors
      (fun _ => AttemptResult.clientError "ThrottlingException" (α := Unit)) =
      retryGo defaultRetryableErrors
        (fun _ => AttemptResult.clientError "ThrottlingException" (α := Unit))
        MAX_RETRIES 0 := rfl
  rw [hw, h, h0]
  refine ⟨rfl, ?_, rfl⟩
  norm_num [MAX_RETRIES, BASE_DELAY, List.range_succ]

/-- Invariant of `chunk_data`'s accumulation loop: when every value's
serialization fits the limit, the loop succeeds and every produced chunk's
total value-serialization size is within the limit. -/
theorem chunkDataGo_value_budget :
    ∀ (data : List (String × Json)) (cur : List (String × Json)) (size : Nat)
      (acc : List (List (String × Json))),
      (∀ kv ∈ data, (dumps kv.2).length ≤ CHUNK_SIZE) →
      size = (cur.map fun kv => (dumps kv.2).length).sum →
      size ≤ CHUNK_SIZE →
      (∀ c ∈ acc, (c.map fun kv => (dumps kv.2).length).sum ≤ CHUNK_SIZE) →
      ∃ chunks, chunkDataGo data cur size acc = .ok chunks ∧
        ∀ c ∈ chunks, (c.map fun kv => (dumps kv.2).length).sum ≤ CHUNK_SIZE := by
  intro data
  induction data with
  | nil =>
    intro cur size acc _ hsize hle hacc
    refine ⟨acc ++ if cur.isEmpty then [] else [cur], rfl, ?_⟩
    intro c hc
    rcases List.mem_append.1 hc with hc | hc
    · exact hacc c hc
    · rcases hcur : cur.isEmpty with _ | _ <;> rw [hcur] at hc <;> simp at hc
      rw [hc, ← hsize]
      exact hle
  | cons kv rest ih =>
    intro cur size acc hdata hsize hle hacc
    obtain ⟨k, v⟩ := kv
    have hv : (dumps v).length ≤ CHUNK_SIZE := hdata (k, v) (by simp)
    have hrest : ∀ kv ∈ rest, (dumps kv.2).length ≤ CHUNK_SIZE :=
      fun kv h => hdata kv (by simp [h])
    have hcv : chunkValue v = .ok (dumps v, v) := by
      unfold chunkValue
      rw [if_neg (by omega)]
    rw [chunkDataGo, hcv]
    dsimp only
    by_cases hover : size + (dumps v).length > CHUNK_SIZE
    · rw [if_pos hover]
      exact ih [(k, v)] (dumps v).length (acc ++ [cur]) hrest (by simp) hv (by
        intro c hc
        rcases List.mem_append.1 hc with hc | hc
        · exact hacc c hc
        · simp at hc
          rw [hc, ← hsize]
          exact hle)
    · rw [if_neg hover]
      exact ih (cur ++ [(k, v)]) (size + (dumps v).length) acc hrest
        (by simp [hsize]) (by omega) hacc

/-- A string-literal body with no quote, no backslash and no control
character never reaches a closing quote: `parseStrBody` fails on it, for
every fuel. -/
theorem parseStrBody_unterminated :
    ∀ (fuel : Nat) (cs : List Char),
      (∀ c ∈ cs, ¬c = '\"' ∧ ¬c = '\\' ∧ ¬c.toNat < 32) →
      parseStrBody fuel cs = none := by
  intro fuel
  induction fuel with
  | zero => intro cs _; rfl
  | succ fuel ih =>
    intro cs h
    rcases cs with _ | ⟨c, cs⟩
    · rfl
    · obtain ⟨h1, h2, h3⟩ := h c (by simp)
      rw [parseStrBody.eq_def]
      dsimp only
      rw [if_neg h1, if_neg h2, if_neg h3,
        ih cs (fun c hc => h c (by simp [hc]))]
      rfl

/-- A document that opens a string literal and never closes it does not
parse as a JSON value. -/
theorem parseVal_unterminated (fuel : Nat) (body : List Char)
    (h : ∀ c ∈ body, ¬c = '\"' ∧ ¬c = '\\' ∧ ¬c.toNat < 32) :
    parseVal fuel ('\"' :: body) = none := by
  rcases fuel with _ | fuel
  · rfl
  · rw [parseVal.eq_def]
    dsimp only
    rw [show skipWs ('\"' :: body) = '\"' :: body from by simp [skipWs, isJsonWs]]
    dsimp only
    rw [if_pos rfl, parseStrBody_unterminated (fuel + 1) body h]
    rfl

/-- `json.loads` fails on an unterminated string document. -/
theorem loads_unterminated (s : String) (body : List Char)
    (hdata : s.data = '\"' :: body)
    (h : ∀ c ∈ body, ¬c = '\"' ∧ ¬c = '\\' ∧ ¬c.toNat < 32) :
    loads s = none := by
  unfold loads
  rw [hdata, parseVal_unterminated _ body h]

theorem flatten_replicate_singleton (c : Char) :
    ∀ n, (List.replicate n [c]).flatten = List.replicate n c := by
  intro n
  induction n with
  | zero => rfl
  | succ n ih => simp [List.replicate_succ, ih]

theorem foldl_append_data :
    ∀ (l : List String) (acc : String),
      (l.foldl (fun r s => r ++ s) acc).data = acc.data ++ (l.map String.data).flatten := by
  intro l
  induction l with
  | nil => intro acc; simp
  | cons s rest ih =>
    intro acc
    simp [List.foldl_cons, ih, String.data_append]

/-- The serialization of the 1600-character string value, character by
character: a quote, 1600 `'b'`s, and a closing quote. -/
theorem dumps_bigStrVal_data :
    (dumps (Json.str bigStrVal)).data = '\"' :: (List.replicate 1600 'b' ++ ['\"']) := by
  show (escapeString bigStrVal).data = _
  rw [escapeString]
  rw [show bigStrVal.data = List.replicate 1600 'b' from rfl]
  rw [List.map_replicate, show escapeChar 'b' = "b" from by decide]
  rw [String.data_append, String.data_append]
  rw [show String.join (List.replicate 1600 "b") =
    (List.replicate 1600 "b").foldl (fun r s => r ++ s) "" from rfl]
  rw [foldl_append_data, List.map_replicate]
  rw [show ("b" : String).data = ['b'] from rfl, flatten_replicate_singleton]
  rfl

theorem string_length_data (s : String) : s.length = s.data.length := by
  cases s
  rfl

theorem dumps_bigStrVal_length : (dumps (Json.str bigStrVal)).length = 1602 := by
  rw [string_length_data, dumps_bigStrVal_data]
  simp only [List.length_cons, List.length_append, List.length_replicate, List.length_nil]

/-- The truncation `chunk_data` builds for the oversized string value:
the opening quote, 1499 `'b'`s, and the `"..."` marker — an unterminated
string literal. -/
theorem truncated_bigStrVal_data :
    ((dumps (Json.str bigStrVal)).take CHUNK_SIZE ++ "...").data =
      '\"' :: (List.replicate 1499 'b' ++ ['.', '.', '.']) := by
  rw [String.data_append, String.data_take, dumps_bigStrVal_data]
  rw [show ("..." : String).data = ['.', '.', '.'] from rfl]
  rw [show CHUNK_SIZE = 1499 + 1 from rfl]
  rw [List.take_succ_cons]
  rw [List.take_append_of_le_length (by simp only [List.length_replicate]; norm_num)]
  rw [List.take_replicate]
  rw [show (1499 ⊓ 1600) = 1499 from by norm_num]
  simp only [List.cons_append]

theorem truncated_bigStrVal_benign :
    ∀ c ∈ List.replicate 1499 'b' ++ ['.', '.', '.'],
      ¬c = '\"' ∧ ¬c = '\\' ∧ ¬c.toNat < 32 := by
  intro c hc
  rcases List.mem_append.1 hc with hc | hc
  · obtain ⟨-, rfl⟩ := List.mem_replicate.1 hc
    decide
  · simp at hc
    subst hc
    decide

/-- On the oversized string value, the truncation branch's `json.loads`
re-parse fails, so the value's preprocessing raises. -/
theorem chunkValue_bigStrVal :
    chunkValue (Json.str bigStrVal) = .error .jsonDecodeError := by
  unfold chunkValue
  dsimp only
  rw [if_pos (by rw [dumps_bigStrVal_length]; norm_num [CHUNK_SIZE])]
  rw [loads_unterminated _ _ truncated_bigStrVal_data truncated_bigStrVal_benign]

/-- `chunk_data` on a single oversized string value raises the JSON decode
error instead of producing any chunk. -/
theorem chunkData_oversized_value :
    chunkData [("big", Json.str bigStrVal)] = .error .jsonDecodeError := by
  unfold chunkData
  rw [chunkDataGo, chunkValue_bigStrVal]

/-- C3 (amended): when every individual value of the input serializes to at
most `CHUNK_SIZE` (1500) characters, `chunk_data` succeeds and every chunk
it produces keeps the *sum of its values' serialized sizes* — the quantity
the source's accounting tracks — at most the limit; the serialization of a
whole chunk additionally spends characters on keys, quotes, and separators
that this accounting does not count, so the serialized chunk itself can
exceed the limit (see the counterexample).  And a single value whose
serialization exceeds the limit is not packed truncated into its chunk as
claimed: the branch re-parses the truncated serialization with
`json.loads`, and on the 1600-character string value that truncation is an
unterminated string literal, so `chunk_data` raises a JSON decode error
and produces no chunks at all. -/
theorem C3_chunk_value_budget :
    (∀ data : List (String × Json),
      (∀ kv ∈ data, (dumps kv.2).length ≤ CHUNK_SIZE) →
      ∃ chunks, chunkData data = .ok chunks ∧
        ∀ c ∈ chunks, (c.map fun kv => (dumps kv.2).length).sum ≤ CHUNK_SIZE) ∧
    (CHUNK_SIZE < (dumps (Json.str bigStrVal)).length ∧
      chunkData [("big", Json.str bigStrVal)] = .error .jsonDecodeError) := by
  refine ⟨?_, ?_, chunkData_oversized_value⟩
  · intro data h
    exact chunkDataGo_value_budget data [] 0 [] h rfl (by norm_num [CHUNK_SIZE]) (by simp)
  · rw [dumps_bigStrVal_length]
    norm_num [CHUNK_SIZE]

/-- Witness for C3's theorem: the in-budget part on a concrete two-entry
input, and the oversized-value part on the 1600-character string value. -/
theorem C3_witness :
    (∃ chunks, chunkData [("a", .num 1), ("b", .str "x")] = .ok chunks ∧
      ∀ c ∈ chunks, (c.map fun kv => (dumps kv.2).length).sum ≤ CHUNK_SIZE) ∧
    chunkData [("big", Json.str bigStrVal)] = .error .jsonDecodeError :=
  ⟨C3_chunk_value_budget.1 [("a", .num 1), ("b", .str "x")] (by decide),
   C3_chunk_value_budget.2.2⟩

theorem foldl_append_length :
    ∀ (l : List String) (acc : String),
      (l.foldl (fun r s => r ++ s) acc).length = acc.length + (l.map String.length).sum := by
  intro l
  induction l with
  | nil => intro acc; simp
  | cons s rest ih =>
    intro acc
    simp [List.foldl_cons, ih, String.length_append]
    omega

theorem join_length (l : List String) :
    (String.join l).length = (l.map String.length).sum := by
  simp [String.join, foldl_append_length]

theorem escapeString_replicate_a (n : Nat) :
    (escapeString (String.mk (List.replicate n 'a'))).length = n + 2 := by
  rw [escapeString]
  rw [show (String.mk (List.replicate n 'a')).data = List.replicate n 'a' from rfl]
  rw [List.map_replicate, show escapeChar 'a' = "a" from by decide]
  rw [String.length_append, String.length_append, join_length]
  simp only [List.map_replicate, List.sum_replicate, smul_eq_mul]
  rw [show ("\"" : String).length = 1 from rfl, show ("a" : String).length = 1 from rfl]
  omega

/-- Counterexample for C3 as stated, refuting both of its conjuncts.  The
size bound: on the single-pair input whose key has 1600 characters and
whose value serializes to one character, `chunk_data` returns that pair as
one chunk (its size accounting only counts the value's serialization), yet
the chunk's own serialization is 1607 characters — over the
1500-character limit.  The oversized-value clause: on a 1600-character
string value, `chunk_data` does not truncate the value (with a marker)
into its chunk — it raises a JSON decode error and produces no chunks at
all, because it re-parses the truncated serialization, which is an
unterminated string literal. -/
theorem C3_counterexample :
    (chunkData [(bigKey, Json.num 1)] = .ok [[(bigKey, Json.num 1)]] ∧
      (dumps (Json.obj [(bigKey, Json.num 1)])).length = 1607 ∧
      CHUNK_SIZE < 1607) ∧
    chunkData [("big", Json.str bigStrVal)] = .error .jsonDecodeError := by
  refine ⟨⟨rfl, ?_, by norm_num [CHUNK_SIZE]⟩, chunkData_oversized_value⟩
  show (String.singleton lbrace ++ dumpsObj [(bigKey, Json.num 1)] ++
    String.singleton rbrace).length = 1607
  rw [show dumpsObj [(bigKey, Json.num 1)] = escapeString bigKey ++ ": " ++ dumps (Json.num 1)
    from rfl]
  rw [String.length_append, String.length_append, String.length_append,
    String.length_append]
  rw [show bigKey = String.mk (List.replicate 1600 'a') from rfl, escapeString_replicate_a]
  rfl

/-- The handler's per-stock loop accumulates exactly the per-stock results,
the count of successes, the count of non-successes, and the concatenated
effects. -/
theorem runStocksAux_spec (env : Env) :
    ∀ (ids : List String) (results : List StockResult) (succ fail : Nat) (effs : List Effect),
      runStocksAux env ids (results, succ, fail, effs) =
        (results ++ ids.map fun i => (processStock env i).1,
         succ + ids.countP fun i => (processStock env i).1.success,
         fail + ids.countP fun i => !(processStock env i).1.success,
         effs ++ (ids.map fun i => (processStock env i).2).flatten) := by
  intro ids
  induction ids with
  | nil =>
    intro results succ fail effs
    simp [runStocksAux]
  | cons stockId rest ih =>
    intro results succ fail effs
    have step : runStocksAux env (stockId :: rest) (results, succ, fail, effs) =
        runStocksAux env rest
          (results ++ [(processStock env stockId).1],
           succ + (if (processStock env stockId).1.success then 1 else 0),
           fail + (if (processStock env stockId).1.success then 0 else 1),
           effs ++ (processStock env stockId).2) := rfl
    rw [step, ih]
    simp only [Prod.mk.injEq, List.countP_cons]
    refine ⟨by simp, ?_, ?_, by simp⟩
    · cases (processStock env stockId).1.success <;> simp [Nat.add_assoc, Nat.add_comm 1, Nat.add_left_comm 1]
    · cases (processStock env stockId).1.success <;> simp [Nat.add_assoc, Nat.add_comm 1, Nat.add_left_comm 1]

/-- The 200-response `lambda_handler` builds when enumeration succeeds. -/
theorem lambdaHandler_ok_spec (env : Env) (ids : List String) :
    lambdaHandler env (.ok ids) =
      (⟨200, Json.obj
        [("message", .str "Processing complete"),
         ("total_processed", .num ids.length),
         ("successful", .num (ids.countP fun i => (processStock env i).1.success)),
         ("failed", .num (ids.countP fun i => !(processStock env i).1.success)),
         ("portfolio_analysis", (processPortfolio env ids).1),
         ("results", .arr ((ids.map fun i => (processStock env i).1).map resultToJson))]⟩,
       (processPortfolio env ids).2 ++ (ids.map fun i => (processStock env i).2).flatten) := by
  unfold lambdaHandler
  dsimp only
  rw [runStocksAux_spec env ids [] 0 0 []]
  simp

/-- C7 (amended): for every run whose enumeration succeeds, the outcome is
the flat JSON-serializable object with keys exactly `message`,
`total_processed`, `successful`, `failed`, `portfolio_analysis`,
`results` (wrapped in a 200 status); there is **no** `skipped` field, and
entities skipped for missing source data are counted under `failed`
(their outcome records have `success = False`), not under a separate
skipped count. -/
theorem C7_summary_shape (env : Env) (ids : List String) :
    (lambdaHandler env (.ok ids)).1.statusCode = 200 ∧
    jsonKeys (lambdaHandler env (.ok ids)).1.body =
      ["message", "total_processed", "successful", "failed", "portfolio_analysis", "results"] ∧
    jsonGet (lambdaHandler env (.ok ids)).1.body "skipped" = none ∧
    jsonGet (lambdaHandler env (.ok ids)).1.body "total_processed" = some (.num ids.length) ∧
    jsonGet (lambdaHandler env (.ok ids)).1.body "successful" =
      some (.num (ids.countP fun i => (processStock env i).1.success)) ∧
    jsonGet (lambdaHandler env (.ok ids)).1.body "failed" =
      some (.num (ids.countP fun i => !(processStock env i).1.success)) := by
  rw [lambdaHandler_ok_spec]
  refine ⟨rfl, rfl, ?_, ?_, ?_, ?_⟩ <;> simp [jsonGet, lookupKey, List.find?]

/-- Counterexample for C7 as stated: in a run whose single entity has its
earnings snapshot absent, the returned object has no `skipped` key at all
and counts that entity under `failed` — missing-source entities are not
reported under a separate `skipped` count. -/
theorem C7_counterexample :
    jsonKeys (lambdaHandler envMissing (.ok ["AAA"])).1.body =
      ["message", "total_processed", "successful", "failed", "portfolio_analysis", "results"] ∧
    jsonGet (lambdaHandler envMissing (.ok ["AAA"])).1.body "skipped" = none ∧
    jsonGet (lambdaHandler envMissing (.ok ["AAA"])).1.body "failed" = some (.num 1) ∧
    jsonGet (lambdaHandler envMissing (.ok ["AAA"])).1.body "successful" = some (.num 0) := by
  refine ⟨by decide, by decide, by decide, by decide⟩

/-- C6 (amended): an entity any of whose three source categories is absent
(or empty, which the truthiness test also treats as missing) is recorded
with the outcome `{'stock_id': id, 'success': False, 'error': "Missing
data"}` — a failure-shaped record carrying the missing-data reason, which
the summary counts under `failed` rather than under a distinct skipped
status — and its processing performs no oracle call and no write (the
step's effect list is empty) while the run moves on to the next entity. -/
theorem C6_missing_source_skip (env : Env) (stockId : String) (f t e : Option Snapshot)
    (hf : env.getStockData fundamentalsTable stockId = .ok f)
    (ht : env.getStockData technicalsTable stockId = .ok t)
    (he : env.getStockData earningsTable stockId = .ok e)
    (hmiss : ¬(truthySnap f ∧ truthySnap t ∧ truthySnap e)) :
    processStock env stockId = (⟨stockId, false, some "Missing data", none⟩, []) := by
  have hg : gatherStockData env stockId = .ok none := by
    unfold gatherStockData
    rw [hf, ht, he]
    simp only [Except.bind, Bind.bind, Except.instMonad]
    simp [hmiss, Except.pure]
  unfold processStock
  rw [hg]

/-- Witness for C6: a stock with fundamentals and technicals present but
earnings absent. -/
theorem C6_witness :
    processStock envMissing "AAA" = (⟨"AAA", false, some "Missing data", none⟩, []) :=
  C6_missing_source_skip envMissing "AAA" (some [("v", .num 1)]) (some [("v", .num 1)]) none
    (by decide) (by decide) (by decide) (by decide)

/-- Counterexample for C6 as stated: the missing-earnings entity's record
is `{'success': False, 'error': "Missing data"}` and the run counts it
under `failed` (there is no skipped status in the outcome), so it is not
"recorded as skipped" as distinct from a failure. -/
theorem C6_counterexample :
    (processStock envMissing "AAA").1 = ⟨"AAA", false, some "Missing data", none⟩ ∧
    jsonGet (lambdaHandler envMissing (.ok ["AAA"])).1.body "failed" = some (.num 1) ∧
    jsonGet (lambdaHandler envMissing (.ok ["AAA"])).1.body "skipped" = none := by
  refine ⟨by decide, by decide, by decide⟩

/-- C9 (amended): every call to `store_bias_details` performs exactly one
owner-identity scan of the risk-profile store — the identity is **not**
cached across calls, so `n` calls perform `n` lookups (the cached
`risk_profile` property on the DynamoDB manager is not used here) — and
keys its single upsert by the scanned `userId`, defaulting to the sentinel
`"user-default"` (not `"default"`) when the risk-profile store has no
record. -/
theorem C9_owner_key_per_call (env : Env) (tableName : String) (d : Snapshot)
    (hvalid : validateRequiredFields d requiredBiasFields = true) :
    (storeBiasDetails env tableName (.obj d)).2.countP isRiskScan ≤ 1 ∧
    ((∃ r, env.biasScan = .ok r) →
      (storeBiasDetails env tableName (.obj d)).2.countP isRiskScan = 1) ∧
    (env.biasScan = .ok [] → env.writeBias tableName (.str "user-default") = .ok () →
      storeBiasDetails env tableName (.obj d) =
        (.ok true,
          [.riskScan,
            .biasWrite tableName (.str "user-default")
              ((lookupKey d "bias_score").getD .null)
              ((lookupKey d "volatility_risk").getD .null)
              ((lookupKey d "sector_concentration").getD .null)
              ((lookupKey d "recommendation").getD .null)])) ∧
    (∀ item rest u, env.biasScan = .ok (item :: rest) → lookupKey item "userId" = some u →
      env.writeBias tableName u = .ok () →
      storeBiasDetails env tableName (.obj d) =
        (.ok true,
          [.riskScan,
            .biasWrite tableName u
              ((lookupKey d "bias_score").getD .null)
              ((lookupKey d "volatility_risk").getD .null)
              ((lookupKey d "sector_concentration").getD .null)
              ((lookupKey d "recommendation").getD .null)])) := by
  refine ⟨?_, ?_, ?_, ?_⟩
  · unfold storeBiasDetails
    dsimp only
    rw [if_pos hvalid]
    rcases hscan : env.biasScan with e | items
    · simp [isRiskScan]
    · rcases items with _ | ⟨item, rest⟩
      · rcases hw : env.writeBias tableName (Json.str "user-default") with _ | _ <;>
          simp [hw, isRiskScan]
      · rcases hu : lookupKey item "userId" with _ | u
        · simp [hu, isRiskScan]
        · rcases hw : env.writeBias tableName u with _ | _ <;> simp [hu, hw, isRiskScan]
  · rintro ⟨r, hscan⟩
    unfold storeBiasDetails
    dsimp only
    rw [if_pos hvalid, hscan]
    rcases r with _ | ⟨item, rest⟩
    · rcases hw : env.writeBias tableName (Json.str "user-default") with _ | _ <;>
        simp [hw, isRiskScan]
    · rcases hu : lookupKey item "userId" with _ | u
      · simp [hu, isRiskScan]
      · rcases hw : env.writeBias tableName u with _ | _ <;> simp [hu, hw, isRiskScan]
  · intro hscan hwrite
    unfold storeBiasDetails
    dsimp only
    rw [if_pos hvalid, hscan]
    dsimp only
    rw [hwrite]
  · intro item rest u hscan hu hwrite
    unfold storeBiasDetails
    dsimp only
    rw [if_pos hvalid, hscan]
    dsimp only
    rw [hu]
    dsimp only
    rw [hwrite]

/-- Witness for C9: a valid bias verdict stored against an empty
risk-profile table performs one scan and one upsert keyed by the
`"user-default"` sentinel. -/
theorem C9_witness :
    (storeBiasDetails envBias portfolioBiasTable biasObj).2.countP isRiskScan = 1 ∧
    storeBiasDetails envBias portfolioBiasTable biasObj =
      (.ok true,
        [.riskScan,
          .biasWrite portfolioBiasTable (.str "user-default")
            (.num 5) (.str "low") (.str "tech") (.str "diversify")]) := by
  have h := C9_owner_key_per_call envBias portfolioBiasTable
    [("bias_score", .num 5), ("volatility_risk", .str "low"),
     ("sector_concentration", .str "tech"), ("recommendation", .str "diversify")]
    (by decide)
  refine ⟨h.2.1 ⟨[], rfl⟩, ?_⟩
  have he := h.2.2.1 rfl rfl
  rw [show biasObj = Json.obj
    [("bias_score", .num 5), ("volatility_risk", .str "low"),
     ("sector_concentration", .str "tech"), ("recommendation", .str "diversify")] from rfl, he]
  decide

/-- Counterexample for C9 as stated: two calls to `store_bias_details`
within one process perform two owner-identity scans of the risk-profile
store — nothing is resolved once and cached, so "repeated calls within one
run perform at most one owner-identity lookup" fails; moreover the
sentinel identity used when no risk profile exists is the string
`"user-default"`, not `"default"`. -/
theorem C9_counterexample :
    ((storeBiasDetails envBias portfolioBiasTable biasObj).2 ++
      (storeBiasDetails envBias portfolioBiasTable biasObj).2).countP isRiskScan = 2 ∧
    storeBiasDetails envBias portfolioBiasTable biasObj =
      (.ok true,
        [.riskScan,
          .biasWrite portfolioBiasTable (.str "user-default")
            (.num 5) (.str "low") (.str "tech") (.str "diversify")]) ∧
    ("user-default" : String) ≠ "default" := by
  refine ⟨by decide, by decide, by decide⟩

/-- The first request body is always among a loop run's oracle calls. -/
theorem giLoop_body_mem (cfg : BedrockConfig) (oracle : RequestBody → OracleResp)
    (deeper : Option (String → InferOutcome)) (fuel rc : Nat) (prompt : String) :
    buildBody cfg prompt ∈ (giLoop cfg oracle deeper (fuel + 1) rc prompt).calls := by
  rw [giLoop.eq_def]
  rcases ho : oracle (buildBody cfg prompt) with text | ⟨code, tok⟩ | m <;> simp only [ho]
  · rcases loads text with _ | j <;> simp
  · by_cases htok : code = "ValidationException" ∧ tok = true
    · simp only [if_pos htok]
      rcases deeper with _ | f <;> simp
    · simp only [if_neg htok]
      by_cases hr : code ∈ retryableBedrockErrors ∧ rc < MAX_RETRIES
      · simp only [if_pos hr]
        simp
      · simp only [if_neg hr]
        simp
  · simp

/-- Two oracles that agree on every request a loop run actually sends (and
whose deeper re-entries agree likewise) produce identical runs. -/
theorem giLoop_congr (cfg : BedrockConfig) (o₁ o₂ : RequestBody → OracleResp)
    (deeper₁ deeper₂ : Option (String → InferOutcome))
    (hnone : deeper₁ = none → deeper₂ = none)
    (hsome : ∀ f₁, deeper₁ = some f₁ → ∃ f₂, deeper₂ = some f₂ ∧
      ∀ q, (∀ b ∈ (f₁ q).calls, o₂ b = o₁ b) → f₂ q = f₁ q) :
    ∀ fuel rc prompt,
      (∀ b ∈ (giLoop cfg o₁ deeper₁ fuel rc prompt).calls, o₂ b = o₁ b) →
      giLoop cfg o₂ deeper₂ fuel rc prompt = giLoop cfg o₁ deeper₁ fuel rc prompt := by
  intro fuel
  induction fuel with
  | zero => intro rc prompt _; rfl
  | succ fuel ih =>
    intro rc prompt h
    have hbody : o₂ (buildBody cfg prompt) = o₁ (buildBody cfg prompt) :=
      h _ (giLoop_body_mem cfg o₁ deeper₁ fuel rc prompt)
    rw [giLoop.eq_def, giLoop.eq_def]
    rcases ho : o₁ (buildBody cfg prompt) with text | ⟨code, tok⟩ | m
    · simp only [ho, hbody.trans ho]
    · simp only [ho, hbody.trans ho]
      by_cases htok : code = "ValidationException" ∧ tok = true
      · simp only [if_pos htok]
        rcases hd : deeper₁ with _ | f₁
        · simp only [hd, hnone hd]
        · obtain ⟨f₂, hd₂, hf⟩ := hsome f₁ hd
          have hrun : (giLoop cfg o₁ deeper₁ (fuel + 1) rc prompt).calls =
              buildBody cfg prompt :: (f₁ (truncatePrompt prompt)).calls := by
            rw [giLoop.eq_def]
            simp only [ho, if_pos htok, hd]
          have hagree : ∀ b ∈ (f₁ (truncatePrompt prompt)).calls, o₂ b = o₁ b := by
            intro b hb
            exact h b (by rw [hrun]; exact List.mem_cons_of_mem _ hb)
          simp only [hd, hd₂, hf (truncatePrompt prompt) hagree]
      · simp only [if_neg htok]
        by_cases hr : code ∈ retryableBedrockErrors ∧ rc < MAX_RETRIES
        · simp only [if_pos hr]
          have hrun : (giLoop cfg o₁ deeper₁ (fuel + 1) rc prompt).calls =
              buildBody cfg prompt ::
                (giLoop cfg o₁ deeper₁ fuel (rc + 1) prompt).calls := by
            rw [giLoop.eq_def]
            simp only [ho, if_neg htok, if_pos hr]
          have hagree : ∀ b ∈ (giLoop cfg o₁ deeper₁ fuel (rc + 1) prompt).calls,
              o₂ b = o₁ b := by
            intro b hb
            exact h b (by rw [hrun]; exact List.mem_cons_of_mem _ hb)
          rw [ih (rc + 1) prompt hagree]
        · simp only [if_neg hr]
    · simp only [ho, hbody.trans ho]

/-- Two oracles that agree on every request a `get_inference` run actually
sends produce identical runs. -/
theorem getInference_oracle_congr (cfg : BedrockConfig)
    (o₁ o₂ : RequestBody → OracleResp) :
    ∀ depth prompt,
      (∀ b ∈ (getInference cfg o₁ depth prompt).calls, o₂ b = o₁ b) →
      getInference cfg o₂ depth prompt = getInference cfg o₁ depth prompt := by
  intro depth
  induction depth with
  | zero =>
    intro prompt h
    exact giLoop_congr cfg o₁ o₂ none none (fun _ => rfl)
      (fun f₁ hf => absurd hf (by simp)) MAX_RETRIES 0 prompt h
  | succ depth ih =>
    intro prompt h
    refine giLoop_congr cfg o₁ o₂ (some (getInference cfg o₁ depth))
      (some (getInference cfg o₂ depth)) (by simp) ?_ MAX_RETRIES 0 prompt h
    intro f₁ hf
    rw [Option.some_inj] at hf
    subst hf
    exact ⟨getInference cfg o₂ depth, rfl, fun q hq => ih q hq⟩

/-- `store_recommendation` depends on the environment only through the
write it issues for this table and key. -/
theorem storeRecommendation_congr (env env' : Env) (tableName stockId : String)
    (rec : Json) (hw : env'.writeRec tableName stockId = env.writeRec tableName stockId) :
    storeRecommendation env' tableName stockId rec =
      storeRecommendation env tableName stockId rec := by
  unfold storeRecommendation
  rw [hw]

/-- C1: per-entity failures are isolated and never abort the run.  (a) A
top-level enumeration failure — and only it — yields the 500 aborting
response.  (b) Whenever enumeration succeeds the run completes with a 200
response whose `successful`/`failed` counts are exactly the number of
entities whose per-entity step reported success/non-success — each failed
entity is converted into a structured outcome record, never a propagated
exception.  (c) An entity's outcome depends only on its own dependencies:
for any two behaviours of the storage, oracle and write dependencies that
agree on this entity's reads, its prompt's oracle calls, and its
recommendation write, the per-entity step's outcome and effects are
identical, whatever either behaviour does for other entities. -/
theorem C1_failure_isolation (env : Env) :
    (∀ e, (lambdaHandler env (.error e)).1.statusCode = 500) ∧
    (∀ ids, (lambdaHandler env (.ok ids)).1.statusCode = 200 ∧
      jsonGet (lambdaHandler env (.ok ids)).1.body "successful" =
        some (.num (ids.countP fun i => (processStock env i).1.success)) ∧
      jsonGet (lambdaHandler env (.ok ids)).1.body "failed" =
        some (.num (ids.countP fun i => !(processStock env i).1.success))) ∧
    (∀ env' stockId,
      (∀ tableName, env'.getStockData tableName stockId =
        env.getStockData tableName stockId) →
      env'.riskProfile = env.riskProfile →
      env'.cfg = env.cfg →
      env'.depth = env.depth →
      (∀ p, analysisPromptFor env stockId = some p →
        ∀ b ∈ (getInference env.cfg env.oracle env.depth p).calls,
          env'.oracle b = env.oracle b) →
      env'.writeRec recommendationsTable stockId =
        env.writeRec recommendationsTable stockId →
      processStock env' stockId = processStock env stockId) := by
  refine ⟨fun e => rfl, ?_, ?_⟩
  · intro ids
    rw [lambdaHandler_ok_spec]
    refine ⟨rfl, ?_, ?_⟩ <;> simp [jsonGet, lookupKey, List.find?]
  · intro env' stockId h1 hr hcfg hdepth ho hw
    have hg : gatherStockData env' stockId = gatherStockData env stockId := by
      unfold gatherStockData
      simp only [h1, hr]
    unfold processStock
    rw [hg]
    rcases hgv : gatherStockData env stockId with e | osd
    · rfl
    · rcases osd with _ | sd
      · rfl
      · dsimp only
        have hprompt : analysisPromptFor env stockId =
            some (buildAnalysisPrompt (convertDecimals sd)) := by
          unfold analysisPromptFor
          rw [hgv]
        have hgi : getInference env'.cfg env'.oracle env'.depth
              (buildAnalysisPrompt (convertDecimals sd)) =
            getInference env.cfg env.oracle env.depth
              (buildAnalysisPrompt (convertDecimals sd)) := by
          rw [hcfg, hdepth]
          exact getInference_oracle_congr env.cfg env.oracle env'.oracle env.depth
            (buildAnalysisPrompt (convertDecimals sd)) (ho _ hprompt)
        rw [hgi]
        have hst : ∀ rec, storeRecommendation env' recommendationsTable stockId rec =
            storeRecommendation env recommendationsTable stockId rec :=
          fun rec => storeRecommendation_congr env env' recommendationsTable stockId rec hw
        simp only [hst]

/-- Witness for C1: a three-entity run in which every storage read for
entity `"B"` raises.  The run still returns 200 with `successful = 2` and
`failed = 1`; and changing `"B"`'s injected failure to a different one
leaves entity `"A"`'s outcome exactly unchanged. -/
theorem C1_witness :
    (lambdaHandler envIso (.error (.exn "boom"))).1.statusCode = 500 ∧
    (lambdaHandler envIso (.ok ["A", "B", "C"])).1.statusCode = 200 ∧
    jsonGet (lambdaHandler envIso (.ok ["A", "B", "C"])).1.body "successful" =
      some (.num 2) ∧
    jsonGet (lambdaHandler envIso (.ok ["A", "B", "C"])).1.body "failed" =
      some (.num 1) ∧
    processStock envIso' "A" = processStock envIso "A" := by
  have h := C1_failure_isolation envIso
  refine ⟨h.1 _, (h.2.1 ["A", "B", "C"]).1, ?_, ?_, ?_⟩
  · rw [(h.2.1 ["A", "B", "C"]).2.1]
    have hc : (["A", "B", "C"].countP fun i => (processStock envIso i).1.success) = 2 := by
      decide
    rw [hc]
    norm_cast
  · rw [(h.2.1 ["A", "B", "C"]).2.2]
    have hc : (["A", "B", "C"].countP fun i => !(processStock envIso i).1.success) = 1 := by
      decide
    rw [hc]
    norm_cast
  · exact h.2.2 envIso' "A" (fun tableName => rfl) rfl rfl rfl
      (fun p _ b _ => rfl) rfl

end StockRec
